import Mathlib

/-!
# Video-sharing backend: the controllers as functions on an explicit store

A shallow embedding of `src/controllers/video.controller.js` and
`src/controllers/user.controller.js`.

* The document database is a record of lists (`Store`); a handler takes the
  store and a request and returns its response, the store it leaves behind and
  the list of database calls it made (`Run`).
* A handler ends in one of three ways (`Response`): it sends a JSON body, it
  throws an `ApiError`, or it throws some other JavaScript exception.
* Collaborators that live outside the two controllers (the Atlas search index,
  `isValidObjectId`, the media host, `jsonwebtoken`, the methods of the user
  model, the built-in `String.prototype.toLowerCase`) are fields of `Env`;
  every theorem holds for every `Env`.
* The user schema (`models/user.model.js`) is not among the sources.  Its unique
  indexes and the setter of its field `username` are modelled from the
  specification (`userCreate`, `duplicateKey`, `castUsername`).
* Identifiers are held in their canonical rendering, on which the cast of a
  request parameter to an `ObjectId` is the identity.
* JavaScript coercions (`isNaN`, `<`, `-`, `*`, `parseInt`) are defined here.  A
  finite number is held as `mant / 10 ^ scale`; every conversion and every
  arithmetic operation rounds its exact result to the nearest IEEE double, ties
  to even, as JavaScript does.  Negative zero is not told apart from zero.
-/

namespace VideoBackend

/-! ## JavaScript numbers and the coercions applied to query strings -/

/-- A finite JavaScript number, kept exactly as `mant / 10 ^ scale`. -/
structure Decimal where
  mant : Int
  scale : Nat
deriving DecidableEq, Repr

namespace Decimal

/-- The number `z`. -/
def ofInt (z : Int) : Decimal := ⟨z, 0⟩

/-- The rational number a `Decimal` stands for. -/
def toRat (d : Decimal) : ℚ := (d.mant : ℚ) / (10 : ℚ) ^ d.scale

/-- Subtraction, exact. -/
def sub (a b : Decimal) : Decimal :=
  ⟨a.mant * 10 ^ b.scale - b.mant * 10 ^ a.scale, a.scale + b.scale⟩

/-- Multiplication, exact. -/
def mul (a b : Decimal) : Decimal := ⟨a.mant * b.mant, a.scale + b.scale⟩

/-- Strict comparison `a < b`. -/
def lt (a b : Decimal) : Bool :=
  decide (a.mant * 10 ^ b.scale < b.mant * 10 ^ a.scale)

/-- The integer a `Decimal` equals, when it is one. -/
def toInt? (d : Decimal) : Option Int :=
  if d.mant % 10 ^ d.scale = 0 then some (d.mant / 10 ^ d.scale) else none

end Decimal

/-- A JavaScript number: `NaN`, an infinity, or a finite value. -/
inductive JSNumber where
  | nan
  | inf (negative : Bool)
  | fin (d : Decimal)
deriving DecidableEq, Repr

/-- Floor of the binary logarithm of `n`, by at most `fuel` halvings. -/
def log2Fuel : Nat → Nat → Nat
  | 0, _ => 0
  | fuel + 1, n => if n < 2 then 0 else 1 + log2Fuel fuel (n / 2)

/-- Floor of the binary logarithm of `n`, zero below two. -/
def log2Floor (n : Nat) : Nat := log2Fuel n n

/-- The quotient `a / b` rounded to the nearest integer, a tie going to the even
neighbour. -/
def roundHalfEven (a b : Nat) : Nat :=
  if 2 * (a % b) < b then a / b
  else if b < 2 * (a % b) then a / b + 1
  else if (a / b) % 2 = 0 then a / b
  else a / b + 1

/-- Floor of the binary logarithm of `a / b`, for positive `a` and `b`. -/
def log2Ratio (a b : Nat) : Int :=
  let e0 : Int := (log2Floor a : Int) - (log2Floor b : Int)
  let reaches : Bool :=
    if 0 ≤ e0 then decide (b * 2 ^ e0.toNat ≤ a) else decide (b ≤ a * 2 ^ (-e0).toNat)
  if reaches then e0 else e0 - 1

/-- Halves `k` and lowers the count `n` of binary places while `k` is even and
places are left: `k / 2 ^ n` keeps its value. -/
def reduceDyadic : Nat → Nat → Nat → Nat × Nat
  | 0, k, n => (k, n)
  | fuel + 1, k, n =>
    if n = 0 ∨ k % 2 = 1 then (k, n) else reduceDyadic fuel (k / 2) (n - 1)

namespace JSNumber

/-- The double nearest to a non-zero exact value, ties to even: the value is
written `k * 2 ^ e` with `k` of at most 53 bits and `e` no lower than `-1074`;
a result of `2 ^ 1024` or more is an infinity. -/
def roundGeneral (d : Decimal) : JSNumber :=
  if d.mant = 0 then .fin ⟨0, 0⟩
  else
    let a := d.mant.natAbs
    let b := 10 ^ d.scale
    let e : Int := if log2Ratio a b - 52 < -1074 then -1074 else log2Ratio a b - 52
    let k : Nat :=
      if 0 ≤ e then roundHalfEven a (b * 2 ^ e.toNat)
      else roundHalfEven (a * 2 ^ (-e).toNat) b
    if 971 < e ∨ (e = 971 ∧ 2 ^ 53 ≤ k) then .inf (decide (d.mant < 0))
    else
      let sign : Int := if d.mant < 0 then -1 else 1
      if 0 ≤ e then .fin ⟨sign * ((k * 2 ^ e.toNat : Nat) : Int), 0⟩
      else
        let r := reduceDyadic (-e).toNat k (-e).toNat
        .fin ⟨sign * ((r.1 * 5 ^ r.2 : Nat) : Int), r.2⟩

/-- The Number value of an exact result: the nearest double.  An integer of
magnitude up to `2 ^ 53` is a double and is kept as it is. -/
def ofDecimal (d : Decimal) : JSNumber :=
  match d.toInt? with
  | some z => if z.natAbs ≤ 2 ^ 53 then .fin ⟨z, 0⟩ else roundGeneral d
  | none => roundGeneral d

/-- The number literal `1`. -/
def one : JSNumber := .fin (Decimal.ofInt 1)

/-- The global `isNaN` on a value already converted to a number. -/
def isNaN : JSNumber → Bool
  | .nan => true
  | _ => false

/-- The operator `<` on numbers; any comparison with `NaN` is false. -/
def lt : JSNumber → JSNumber → Bool
  | .fin a, .fin b => a.lt b
  | .fin _, .inf n => !n
  | .inf n, .fin _ => n
  | .inf n, .inf m => n && !m
  | _, _ => false

/-- The operator `-` on numbers. -/
def sub : JSNumber → JSNumber → JSNumber
  | .fin a, .fin b => ofDecimal (a.sub b)
  | .fin _, .inf n => .inf (!n)
  | .inf n, .fin _ => .inf n
  | .inf n, .inf m => if n = m then .nan else .inf n
  | _, _ => .nan

/-- The operator `*` on numbers; zero times an infinity is `NaN`. -/
def mul : JSNumber → JSNumber → JSNumber
  | .fin a, .fin b => ofDecimal (a.mul b)
  | .fin a, .inf n => if a.mant = 0 then .nan else .inf (xor (decide (a.mant < 0)) n)
  | .inf n, .fin b => if b.mant = 0 then .nan else .inf (xor n (decide (b.mant < 0)))
  | .inf n, .inf m => .inf (xor n m)
  | _, _ => .nan

/-- The integer a number equals, when it is a finite integer. -/
def toInt? : JSNumber → Option Int
  | .fin d => d.toInt?
  | _ => none

end JSNumber

/-- White space and line terminators stripped by `Number(string)` and skipped by
`parseInt`. -/
def isWhiteSpace (c : Char) : Bool :=
  let n := c.toNat
  n = 0x20 || n = 0x09 || n = 0x0A || n = 0x0B || n = 0x0C || n = 0x0D || n = 0xA0 ||
  n = 0x1680 || (0x2000 ≤ n && n ≤ 0x200A) || n = 0x2028 || n = 0x2029 || n = 0x202F ||
  n = 0x205F || n = 0x3000 || n = 0xFEFF

/-- Value of a character as a digit or letter digit (`a` is ten, ..., `z` is 35). -/
def digitValue (c : Char) : Option Nat :=
  let n := c.toNat
  if 48 ≤ n ∧ n ≤ 57 then some (n - 48)
  else if 97 ≤ n ∧ n ≤ 122 then some (n - 97 + 10)
  else if 65 ≤ n ∧ n ≤ 90 then some (n - 65 + 10)
  else none

/-- Value of a character as a digit of the given radix. -/
def radixDigit (radix : Nat) (c : Char) : Option Nat :=
  (digitValue c).filter (fun d => decide (d < radix))

/-- Longest run of radix digits at the front of the input, and what follows it. -/
def takeDigits (radix : Nat) : List Char → List Nat × List Char
  | [] => ([], [])
  | c :: cs =>
    match radixDigit radix c with
    | some d => ((d :: (takeDigits radix cs).1), (takeDigits radix cs).2)
    | none => ([], c :: cs)

/-- The natural number written by a list of digits, most significant first. -/
def digitsValue (radix : Nat) (ds : List Nat) : Nat :=
  ds.foldl (fun acc d => acc * radix + d) 0

/-- Splits an optional leading sign off; the flag says the sign was `-`. -/
def splitSign : List Char → Bool × List Char
  | c :: cs => if c = '-' then (true, cs) else if c = '+' then (false, cs) else (false, c :: cs)
  | [] => (false, [])

/-- Value `m * 10 ^ (-fracLen)` times `10 ^ ex` (or `10 ^ (-ex)` when `negExp`). -/
def scaleBy (m fracLen : Nat) (negExp : Bool) (ex : Nat) : Decimal :=
  if negExp then ⟨m, fracLen + ex⟩
  else if fracLen ≤ ex then ⟨(m * 10 ^ (ex - fracLen) : Nat), 0⟩
  else ⟨m, fracLen - ex⟩

/-- The exponent part `e[+-]digits` that must use up the rest of the literal. -/
def parseExponent (m fracLen : Nat) : List Char → Option Decimal
  | [] => some ⟨m, fracLen⟩
  | e :: t =>
    if e = 'e' ∨ e = 'E' then
      let signed := splitSign t
      let ds := takeDigits 10 signed.2
      if ds.1.isEmpty || !ds.2.isEmpty then none
      else some (scaleBy m fracLen signed.1 (digitsValue 10 ds.1))
    else none

/-- An unsigned decimal literal: `digits`, `digits.`, `digits.digits`, `.digits`,
each with an optional exponent. -/
def parseUnsignedDecimal (cs : List Char) : Option Decimal :=
  let ip := takeDigits 10 cs
  let fp : List Nat × List Char :=
    match ip.2 with
    | c :: t => if c = '.' then takeDigits 10 t else ([], c :: t)
    | [] => ([], [])
  if ip.1.isEmpty && fp.1.isEmpty then none
  else parseExponent (digitsValue 10 (ip.1 ++ fp.1)) fp.1.length fp.2

/-- A signed decimal literal or a signed `Infinity`. -/
def parseDecimalLiteral (cs : List Char) : JSNumber :=
  let signed := splitSign cs
  if signed.2 = "Infinity".toList then .inf signed.1
  else
    match parseUnsignedDecimal signed.2 with
    | some d => JSNumber.ofDecimal (if signed.1 then ⟨-d.mant, d.scale⟩ else d)
    | none => .nan

/-- The digits of a `0x`, `0o` or `0b` literal, which must be all that is left. -/
def parseNonDecimal (radix : Nat) (cs : List Char) : JSNumber :=
  let ds := takeDigits radix cs
  if ds.1.isEmpty || !ds.2.isEmpty then .nan
  else JSNumber.ofDecimal (Decimal.ofInt (digitsValue radix ds.1))

/-- Removes white space at both ends. -/
def trimWhiteSpace (cs : List Char) : List Char :=
  ((cs.dropWhile isWhiteSpace).reverse.dropWhile isWhiteSpace).reverse

/-- The conversion `Number(s)` of a string, used implicitly by `isNaN(s)`, `s < 1`,
`s - 1` and `a * s`: white space is trimmed, the empty string is `0`, anything
that is not a numeric literal is `NaN`, and the value of a literal is rounded to
the nearest double. -/
def toNumber (s : String) : JSNumber :=
  match trimWhiteSpace s.toList with
  | [] => .fin (Decimal.ofInt 0)
  | [c] => parseDecimalLiteral [c]
  | c :: x :: rest =>
    if c = '0' ∧ (x = 'x' ∨ x = 'X') then parseNonDecimal 16 rest
    else if c = '0' ∧ (x = 'o' ∨ x = 'O') then parseNonDecimal 8 rest
    else if c = '0' ∧ (x = 'b' ∨ x = 'B') then parseNonDecimal 2 rest
    else parseDecimalLiteral (c :: x :: rest)

/-- Radix and digits that `parseInt` reads after the sign: sixteen after a `0x`
marker, ten otherwise. -/
def parseIntRadix : List Char → Nat × List Char
  | c :: x :: rest => if c = '0' ∧ (x = 'x' ∨ x = 'X') then (16, rest) else (10, c :: x :: rest)
  | cs => (10, cs)

/-- The call `parseInt(s)` without a radix: leading white space and a sign are
skipped, then the longest run of digits is read and its value rounded to a
double; `none` stands for `NaN` and for an infinity, which JSON renders and
`$limit` rejects alike. -/
def parseInt (s : String) : Option Int :=
  let signed := splitSign (s.toList.dropWhile isWhiteSpace)
  let rd := parseIntRadix signed.2
  let ds := takeDigits rd.1 rd.2
  if ds.1.isEmpty then none
  else
    (JSNumber.ofDecimal (Decimal.ofInt
      (if signed.1 then -(digitsValue rd.1 ds.1 : Int) else (digitsValue rd.1 ds.1 : Int)))).toInt?

/-- Truthiness of an optional string: `undefined` and the empty string are falsy. -/
def truthy : Option String → Bool
  | some s => s ≠ ""
  | none => false

/-- ASCII lower-casing of one character. -/
def lowerChar (c : Char) : Char :=
  if 65 ≤ c.toNat ∧ c.toNat ≤ 90 then Char.ofNat (c.toNat + 32) else c

/-- Lower-casing of the ASCII letters of a string, which is what
`String.prototype.toLowerCase` does to a string of ASCII characters; the sample
collaborators use it, on ASCII names. -/
def asciiToLowerCase (s : String) : String := String.mk (s.toList.map lowerChar)

/-! ## The entity store -/

/-- An `ObjectId`, in its canonical hexadecimal rendering. -/
abbrev ObjectId := String

/-- A media reference: the url of the asset and the identifier the media host
gave it. -/
structure MediaRef where
  url : String
  public_id : String
deriving DecidableEq, Repr

/-- A document of the `users` collection. -/
structure User where
  _id : ObjectId
  username : String
  email : String
  fullName : String
  password : String
  avatar : MediaRef
  coverImage : MediaRef
  refreshToken : Option String
  watchHistory : List ObjectId
  createdAt : Nat
  updatedAt : Nat
deriving DecidableEq, Repr

/-- A document of the `videos` collection. -/
structure Video where
  _id : ObjectId
  owner : ObjectId
  title : String
  description : String
  videoFile : MediaRef
  thumbnail : MediaRef
  duration : Nat
  views : Nat
  isPublished : Bool
  createdAt : Nat
  updatedAt : Nat
deriving DecidableEq, Repr

/-- A document of the `subscriptions` collection: `subscriber` follows `channel`. -/
structure Subscription where
  _id : ObjectId
  subscriber : ObjectId
  channel : ObjectId
deriving DecidableEq, Repr

/-- A document of the `likes` collection. -/
structure Like where
  _id : ObjectId
  video : ObjectId
  likedBy : ObjectId
deriving DecidableEq, Repr

/-- A document of the `comments` collection. -/
structure Comment where
  _id : ObjectId
  video : ObjectId
  owner : ObjectId
  content : String
deriving DecidableEq, Repr

/-- The five collections of the database. -/
structure Store where
  users : List User
  videos : List Video
  subscriptions : List Subscription
  likes : List Like
  comments : List Comment
deriving DecidableEq, Repr

/-- The database calls a handler can make. -/
inductive DbCall where
  | videoAggregate
  | videoFindById
  | userAggregate
  | userFindOne
  | userFindById
  | userCreate
  | userSave
  | userFindByIdAndUpdate
  | videoFindByIdAndUpdate
  | videoDeleteOne
  | likeDeleteMany
  | commentDeleteMany
deriving DecidableEq, Repr

/-- How a handler ends: `res.status(status).json(new ApiResponse(_, data, _))`,
`throw new ApiError(statusCode, message)`, or any other thrown exception. -/
inductive Response (α : Type) where
  | json (status : Nat) (data : α)
  | apiError (statusCode : Nat) (message : String)
  | exception (name : String)
deriving DecidableEq, Repr

/-- One execution of a handler: what it answered, the store it left, and the
database calls it made, in order. -/
structure Run (α : Type) where
  response : Response α
  store : Store
  calls : List DbCall
deriving DecidableEq, Repr

/-- Collaborators defined outside the two controllers. -/
structure Env where
  /-- The function `isValidObjectId` of mongoose. -/
  isValidObjectId : String → Bool
  /-- The Atlas Search index `search-videos`: the documents of the collection
  that match a text query over title and description, by relevance. -/
  searchVideos : String → List Video → List Video
  /-- The helper `uploadOnCloudinary`: the stored asset, or `null`. -/
  uploadOnCloudinary : Option String → Option MediaRef
  /-- The call `jwt.verify(token, REFRESH_TOKEN_SECRET)`: `none` when it throws,
  otherwise the field `_id` of the decoded payload. -/
  verifyRefreshToken : String → Option (Option ObjectId)
  /-- The method `generateAccessToken` of a user document. -/
  generateAccessToken : User → String
  /-- The method `generateRefreshToken` of a user document. -/
  generateRefreshToken : User → String
  /-- The method `isPasswordCorrect` of a user document. -/
  isPasswordCorrect : User → String → Bool
  /-- What the save hook of the user model stores for a password that was set. -/
  hashPassword : String → String
  /-- The identifier the database gives the next inserted document. -/
  newObjectId : Store → ObjectId
  /-- The clock behind the `createdAt` and `updatedAt` timestamps. -/
  now : Nat
  /-- The helper `destroyOnCloudinary` on a public id: `true` when the call
  resolves, `false` when it rejects. -/
  destroyOnCloudinary : String → Bool
  /-- The built-in method `String.prototype.toLowerCase`, with the Unicode case
  mapping of the runtime. -/
  toLowerCase : String → String

/-! ## `getAllVideos` -/

/-- The query string of `GET /videos`; a field is `none` when the parameter is
not in the url.  A parameter given as an array or object is coerced through its
string rendering by every operation the handler applies, so strings suffice. -/
structure ListQuery where
  page : Option String
  limit : Option String
  sortBy : Option String
  sortType : Option String
  userId : Option String
  query : Option String
deriving DecidableEq, Repr

/-- What the `$lookup` sub-pipeline keeps of an owner: `_id`, `username`,
`avatar.url`. -/
structure OwnerSummary where
  _id : ObjectId
  username : String
  avatarUrl : String
deriving DecidableEq, Repr

/-- The field `ownerDetails` of a document on its way through the pipeline. -/
inductive OwnerDetails where
  | absent
  | array (owners : List OwnerSummary)
  | object (owner : OwnerSummary)
deriving DecidableEq, Repr

/-- A video document on its way through the pipeline of `getAllVideos`: no stage
projects fields away, so it carries the whole video. -/
structure ListedVideo where
  video : Video
  ownerDetails : OwnerDetails
deriving DecidableEq, Repr

/-- The stages `getAllVideos` pushes before the final `$facet`. -/
inductive Stage where
  | search (query : String)
  | matchOwner (owner : ObjectId)
  | matchPublished
  | lookupOwnerDetails
  | unwindOwnerDetails
  | sort (field : String) (direction : Int)
deriving DecidableEq, Repr

/-- The final stage
`$facet: (metadata: [$count total], data: [$skip skip, $limit limit])`;
`limit` is the result of a `parseInt`, `none` standing for `NaN`. -/
structure Facet where
  skip : JSNumber
  limit : Option Int
deriving DecidableEq, Repr

/-- The array `pipeline` once the handler has finished pushing: the stages and,
always last, the facet. -/
structure Pipeline where
  stages : List Stage
  facet : Facet
deriving DecidableEq, Repr

/-- The single document a `$facet` stage produces. -/
structure FacetResult where
  metadata : List Nat
  data : List ListedVideo
deriving DecidableEq, Repr

/-- The field `pagination` of the answer. -/
structure Pagination where
  currentPage : Option Int
  limit : Option Int
  totalVideos : Nat
deriving DecidableEq, Repr

/-- The field `data` of the answer of `getAllVideos`. -/
structure ListPayload where
  videos : List ListedVideo
  pagination : Pagination
deriving DecidableEq, Repr

/-- The sort key of a document for a field name, as a list compared
lexicographically: a date by its timestamp, a string by its code points, and a
field the documents do not have by the same null key for all. -/
def sortKey (field : String) (d : ListedVideo) : List Nat :=
  if field = "createdAt" then [d.video.createdAt]
  else if field = "title" then d.video.title.toList.map Char.toNat
  else if field = "updatedAt" then [d.video.updatedAt]
  else if field = "description" then d.video.description.toList.map Char.toNat
  else if field = "duration" then [d.video.duration]
  else if field = "views" then [d.video.views]
  else if field = "_id" then d.video._id.toList.map Char.toNat
  else if field = "owner" then d.video.owner.toList.map Char.toNat
  else []

/-- The order `$sort` puts two documents in: ascending for direction `1`,
descending otherwise. -/
def sortRel (field : String) (direction : Int) (a b : ListedVideo) : Prop :=
  if direction = 1 then sortKey field a ≤ sortKey field b
  else sortKey field b ≤ sortKey field a

instance sortRelDecidable (field : String) (direction : Int) :
    DecidableRel (sortRel field direction) := fun a b => by
  unfold sortRel
  exact inferInstance

/-- The join `$lookup` from `users` on `owner = _id`, each user reduced by the
sub-pipeline `$project: (username: 1, avatar.url: 1)`. -/
def lookupOwnerDetails (users : List User) (v : Video) : List OwnerSummary :=
  (users.filter (fun u => u._id = v.owner)).map
    (fun u => { _id := u._id, username := u.username, avatarUrl := u.avatar.url })

/-- The stage `$unwind` on one document: one output per array element, none for
an empty array or a missing field, the document itself for a non-array value. -/
def unwindOwnerDetails (d : ListedVideo) : List ListedVideo :=
  match d.ownerDetails with
  | .absent => []
  | .array owners => owners.map (fun o => { d with ownerDetails := .object o })
  | .object _ => [d]

/-- One stage applied to the documents reaching it.  A `$search` never gets
here: it is served by the index when it comes first and rejected by `runStages`
otherwise. -/
def runStage (store : Store) : Stage → List ListedVideo → List ListedVideo
  | .search _, docs => docs
  | .matchOwner owner, docs => docs.filter (fun d => d.video.owner = owner)
  | .matchPublished, docs => docs.filter (fun d => d.video.isPublished = true)
  | .lookupOwnerDetails, docs =>
    docs.map (fun d => { d with ownerDetails := .array (lookupOwnerDetails store.users d.video) })
  | .unwindOwnerDetails, docs => docs.flatMap unwindOwnerDetails
  | .sort field direction, docs => docs.insertionSort (sortRel field direction)

/-- The stages after the first position; the server rejects a `$search` there. -/
def runStages (store : Store) : List Stage → List ListedVideo → Except String (List ListedVideo)
  | [], docs => .ok docs
  | .search _ :: _, _ => .error "$search is only valid as the first stage in a pipeline"
  | s :: rest, docs => runStages store rest (runStage store s docs)

/-- The documents that reach the final facet: the collection, or what the search
index returns from it when `$search` is the first stage, passed through the
other stages. -/
def runPipelineStages (env : Env) (store : Store) (stages : List Stage) :
    Except String (List ListedVideo) :=
  match stages with
  | .search q :: rest =>
    runStages store rest ((env.searchVideos q store.videos).map (fun v => ⟨v, .absent⟩))
  | _ => runStages store stages (store.videos.map (fun v => ⟨v, .absent⟩))

/-- The stage `$facet`.  The server accepts only a non-negative integer for
`$skip` and a positive integer for `$limit`, both within a signed 64-bit
integer; `$count` yields no document on an empty input. -/
def runFacet (f : Facet) (docs : List ListedVideo) : Except String FacetResult :=
  match f.skip.toInt?, f.limit with
  | some s, some l =>
    if s < 0 ∨ 2 ^ 63 ≤ s then .error "invalid argument to $skip stage"
    else if l ≤ 0 ∨ 2 ^ 63 ≤ l then .error "invalid argument to $limit stage"
    else .ok { metadata := if docs.isEmpty then [] else [docs.length],
               data := (docs.drop s.toNat).take l.toNat }
  | _, _ => .error "invalid argument to $skip or $limit stage"

/-- The call `Video.aggregate(pipeline)`: the one-element result of the facet,
or the error the server raises. -/
def videoAggregate (env : Env) (store : Store) (p : Pipeline) : Except String FacetResult :=
  match runPipelineStages env store p.stages with
  | .ok docs => runFacet p.facet docs
  | .error e => .error e

/-- The bindings `video.controller.js` imports (lines 1 to 12). -/
def videoControllerImports : List String :=
  ["Video", "ApiError", "ApiResponse", "asyncHandler", "isValidObjectId",
   "destroyOnCloudinary", "uploadOnCloudinary", "Like", "Comment", "User"]

/-- The constant `validSortFields`. -/
def validSortFields : List String := ["createdAt", "title", "userId"]

/-- The pipeline `getAllVideos` builds for a validated query, or the response
the handler ends with while building it.  Evaluating the identifier `mongoose`
raises a `ReferenceError` unless the module binds it. -/
def buildPipeline (env : Env) (q : ListQuery) : Except (Response ListPayload) Pipeline :=
  let page := q.page.getD "1"
  let limit := q.limit.getD "10"
  let sortBy := q.sortBy.getD "createdAt"
  let searchStage : List Stage := if truthy q.query then [.search (q.query.getD "")] else []
  let tail : List Stage :=
    [.matchPublished, .lookupOwnerDetails, .unwindOwnerDetails,
     .sort sortBy (if q.sortType = some "asc" then 1 else -1)]
  let facet : Facet :=
    { skip := ((toNumber page).sub JSNumber.one).mul (toNumber limit), limit := parseInt limit }
  if truthy q.userId then
    if !env.isValidObjectId (q.userId.getD "") then .error (.apiError 400 "Invalid userId")
    else if !videoControllerImports.contains "mongoose" then
      .error (.exception "ReferenceError: mongoose is not defined")
    else .ok ⟨searchStage ++ [.matchOwner (q.userId.getD "")] ++ tail, facet⟩
  else .ok ⟨searchStage ++ tail, facet⟩

/-- The input validation at the top of `getAllVideos`: the `ApiError` it throws,
if any. -/
def validateListQuery (q : ListQuery) : Option (Response ListPayload) :=
  let page := q.page.getD "1"
  let limit := q.limit.getD "10"
  let sortBy := q.sortBy.getD "createdAt"
  if (toNumber page).isNaN || (toNumber page).lt JSNumber.one then
    some (.apiError 400 "Invalid page number")
  else if (toNumber limit).isNaN || (toNumber limit).lt JSNumber.one then
    some (.apiError 400 "Invalid limit number")
  else if !validSortFields.contains sortBy then some (.apiError 400 "Invalid sort field")
  else none

/-- The handler `getAllVideos`. -/
def getAllVideos (env : Env) (store : Store) (q : ListQuery) : Run ListPayload :=
  match validateListQuery q with
  | some failure => ⟨failure, store, []⟩
  | none =>
    match buildPipeline env q with
    | .error failure => ⟨failure, store, []⟩
    | .ok pipeline =>
      match videoAggregate env store pipeline with
      | .error _ => ⟨.apiError 500 "ERROR:fetching videos", store, [.videoAggregate]⟩
      | .ok video =>
        ⟨.json 200
          { videos := video.data,
            pagination :=
              { currentPage := parseInt (q.page.getD "1"),
                limit := parseInt (q.limit.getD "10"),
                totalVideos := match video.metadata.head? with
                  | some total => total
                  | none => 0 } },
         store, [.videoAggregate]⟩

/-! ## `getVideoById` -/

/-- The owner sub-document after the inner pipeline of the `$lookup` from
`users`: the projection keeps `_id`, `username`, `avatar.url`,
`subscribersCount` and `isSubscribed`. -/
structure VideoOwner where
  _id : ObjectId
  username : String
  avatarUrl : String
  subscribersCount : Nat
  isSubscribed : Bool
deriving DecidableEq, Repr

/-- A document produced by the pipeline of `getVideoById`: the fields of the
final `$project` that the document has (`comments` is on no video document);
`owner` is missing when no user has the owner identifier. -/
structure VideoDetail where
  _id : ObjectId
  videoFile : MediaRef
  thumbnail : MediaRef
  title : String
  description : String
  views : Nat
  createdAt : Nat
  duration : Nat
  owner : Option VideoOwner
  likesCount : Nat
  isLiked : Bool
deriving DecidableEq, Repr

/-- The expression `$in: [req.user?._id, array]`: an absent viewer is sent as
`null`, here `none`, and the array holds identifiers. -/
def viewerIn (viewer : Option ObjectId) (ids : List ObjectId) : Bool :=
  (ids.map some).contains viewer

/-- The inner pipeline on one owner: join the subscriptions whose `channel` is
the owner, count them, test the viewer against their `subscriber`, project. -/
def videoOwner (store : Store) (viewer : Option ObjectId) (u : User) : VideoOwner :=
  let subscribers := store.subscriptions.filter (fun s => s.channel = u._id)
  { _id := u._id, username := u.username, avatarUrl := u.avatar.url,
    subscribersCount := subscribers.length,
    isSubscribed := viewerIn viewer (subscribers.map (fun s => s.subscriber)) }

/-- The stages after the `$match` on one video: join its likes, join its owner,
add `likesCount`, `owner` (first of the joined owners) and `isLiked`, project. -/
def videoDetail (store : Store) (viewer : Option ObjectId) (v : Video) : VideoDetail :=
  let likes := store.likes.filter (fun l => l.video = v._id)
  let owner := (store.users.filter (fun u => u._id = v.owner)).map (videoOwner store viewer)
  { _id := v._id, videoFile := v.videoFile, thumbnail := v.thumbnail, title := v.title,
    description := v.description, views := v.views, createdAt := v.createdAt,
    duration := v.duration, owner := owner.head?,
    likesCount := likes.length,
    isLiked := viewerIn viewer (likes.map (fun l => l.likedBy)) }

/-- The handler `getVideoById`; `viewer` is `req.user?._id`.  The value handed
to `ApiResponse` is the array `Video.aggregate` resolves to. -/
def getVideoById (env : Env) (store : Store) (viewer : Option ObjectId) (videoId : String) :
    Run (List VideoDetail) :=
  if !env.isValidObjectId videoId then ⟨.apiError 400 "Invalid videoId", store, []⟩
  else
    match store.videos.find? (fun v => v._id = videoId) with
    | none => ⟨.apiError 404 "video not found", store, [.videoFindById]⟩
    | some videoExist =>
      let video := (store.videos.filter (fun v => v._id = videoExist._id)).map
        (videoDetail store viewer)
      ⟨.json 200 video, store, [.videoFindById, .videoAggregate]⟩

/-! ## `getUserChannelProfile` -/

/-- The document the pipeline of `getUserChannelProfile` projects. -/
structure ChannelProfile where
  _id : ObjectId
  fullName : String
  username : String
  subscribersCount : Nat
  channelsSubscribedToCount : Nat
  isSubscribed : Bool
  avatarUrl : String
  coverImage : MediaRef
  email : String
  createdAt : Nat
  updatedAt : Nat
  totalVideos : Nat
  videos : List Video
deriving DecidableEq, Repr

/-- The stages after the `$match` on one user: the three joins, the added
fields and the projection. -/
def channelProfile (store : Store) (viewer : Option ObjectId) (u : User) : ChannelProfile :=
  let subscribers := store.subscriptions.filter (fun s => s.channel = u._id)
  let subscribedTo := store.subscriptions.filter (fun s => s.subscriber = u._id)
  let videos := store.videos.filter (fun v => v.owner = u._id)
  { _id := u._id, fullName := u.fullName, username := u.username,
    subscribersCount := subscribers.length,
    channelsSubscribedToCount := subscribedTo.length,
    isSubscribed := viewerIn viewer (subscribers.map (fun s => s.subscriber)),
    avatarUrl := u.avatar.url, coverImage := u.coverImage, email := u.email,
    createdAt := u.createdAt, updatedAt := u.updatedAt,
    totalVideos := videos.length, videos := videos }

/-- The handler `getUserChannelProfile`; `username` is `req.params.username` and
`viewer` is `req.user?._id`.  The `$match` of an aggregation is not cast by the
schema: the stored username is compared with the lower-cased name as it is. -/
def getUserChannelProfile (env : Env) (store : Store) (viewer : Option ObjectId)
    (username : Option String) : Run ChannelProfile :=
  match username with
  | none => ⟨.apiError 400 "username is missing", store, []⟩
  | some name =>
    if trimWhiteSpace name.toList = [] then ⟨.apiError 400 "username is missing", store, []⟩
    else
      let channel := (store.users.filter (fun u => u.username = env.toLowerCase name)).map
        (channelProfile store viewer)
      match channel with
      | [] => ⟨.apiError 404 "channel does not exists", store, [.userAggregate]⟩
      | first :: _ => ⟨.json 200 first, store, [.userAggregate]⟩

/-! ## `registerUser` -/

/-- The body and files of a registration request. -/
structure RegisterRequest where
  fullName : Option String
  email : Option String
  username : Option String
  password : Option String
  avatarLocalPath : Option String
  coverImageLocalPath : Option String
deriving DecidableEq, Repr

/-- A user document without `password` and `refreshToken`, as selected by
`.select("-password -refreshToken")`. -/
structure PublicUser where
  _id : ObjectId
  username : String
  email : String
  fullName : String
  avatar : MediaRef
  coverImage : MediaRef
  watchHistory : List ObjectId
  createdAt : Nat
  updatedAt : Nat
deriving DecidableEq, Repr

/-- The selection `-password -refreshToken`. -/
def User.toPublic (u : User) : PublicUser :=
  { _id := u._id, username := u.username, email := u.email, fullName := u.fullName,
    avatar := u.avatar, coverImage := u.coverImage, watchHistory := u.watchHistory,
    createdAt := u.createdAt, updatedAt := u.updatedAt }

/-- The call `User.findById`. -/
def findUserById (store : Store) (id : Option ObjectId) : Option User :=
  match id with
  | some i => store.users.find? (fun u => u._id = i)
  | none => none

/-- Modelled from the spec: the setter of the field `username` in the user schema
(the file `models/user.model.js` is absent).  The specification gives the
username of a user as unique and case-normalized, so the schema lower-cases
every username it casts: in the filter of a `findOne`, in the document of a
`create` and in the `$set` of a `findByIdAndUpdate`.  The pipeline of an
aggregation is not cast. -/
def castUsername (env : Env) (username : String) : String := env.toLowerCase username

/-- Modelled from the spec: the insertion `User.create` under the unique indexes
on `username` and `email` that the specification gives the user entity (the file
`models/user.model.js` is absent): the username of the document goes through
the setter of the schema, a document whose username or email is already stored
is refused with a duplicate-key error, any other is appended. -/
def userCreate (env : Env) (store : Store) (fullName avatarUrl coverImageUrl email password
    username : String) : Except String (User × Store) :=
  if store.users.any (fun u => u.username = castUsername env username || u.email = email) then
    .error "MongoServerError: E11000 duplicate key error"
  else
    let user : User :=
      { _id := env.newObjectId store, username := castUsername env username, email := email,
        fullName := fullName, password := env.hashPassword password,
        avatar := ⟨avatarUrl, ""⟩, coverImage := ⟨coverImageUrl, ""⟩,
        refreshToken := none, watchHistory := [], createdAt := env.now, updatedAt := env.now }
    .ok (user, { store with users := store.users ++ [user] })

/-- The handler `registerUser`.  The filter of `User.findOne` is cast by the
schema, so the username in it goes through the setter; the document handed to
`User.create` carries `username.toLowerCase()`. -/
def registerUser (env : Env) (store : Store) (req : RegisterRequest) : Run PublicUser :=
  match req.fullName, req.email, req.username, req.password with
  | some fullName, some email, some username, some password =>
    match store.users.find?
        (fun u => u.username = castUsername env username || u.email = email) with
    | some _ =>
      ⟨.apiError 409 "User with email or username already exists", store, [.userFindOne]⟩
    | none =>
      if !truthy req.avatarLocalPath then
        ⟨.apiError 400 "Avatar file is required", store, [.userFindOne]⟩
      else
        match env.uploadOnCloudinary req.avatarLocalPath with
        | none => ⟨.apiError 400 "Avatar file is required", store, [.userFindOne]⟩
        | some avatar =>
          let coverImageUrl :=
            match env.uploadOnCloudinary req.coverImageLocalPath with
            | some coverImage => coverImage.url
            | none => ""
          match userCreate env store fullName avatar.url coverImageUrl email password
              (env.toLowerCase username) with
          | .error e => ⟨.exception e, store, [.userFindOne, .userCreate]⟩
          | .ok (user, store1) =>
            match findUserById store1 (some user._id) with
            | none =>
              ⟨.apiError 500 "Something went wrong while registering the user", store1,
                [.userFindOne, .userCreate, .userFindById]⟩
            | some createdUser =>
              ⟨.json 201 createdUser.toPublic, store1,
                [.userFindOne, .userCreate, .userFindById]⟩
  | _, _, _, _ => ⟨.apiError 400 "All fields are required", store, []⟩

/-! ## Tokens and passwords -/

/-- The call `user.save()`: the stored document with the same `_id` is replaced. -/
def saveUser (store : Store) (user : User) : Store :=
  { store with users := store.users.map (fun u => if u._id = user._id then user else u) }

/-- The field of a returned object read by a destructuring pattern; `none` is
`undefined`. -/
def field (object : List (String × String)) (name : String) : Option String :=
  (object.find? (fun kv => kv.1 = name)).map (fun kv => kv.2)

/-- The helper `generateAccessAndRefreshTokens`: the object it returns, with
the fields `accessToken` and `refreshToken`, and the store after the save; an
error when the user is not found (the `catch` turns it into an `ApiError` 500). -/
def generateAccessAndRefreshTokens (env : Env) (store : Store) (userId : ObjectId) :
    Except (Nat × String) (List (String × String) × Store) :=
  match findUserById store (some userId) with
  | none => .error (500, "Something went wrong while generating tokens")
  | some activeUser =>
    let accessToken := env.generateAccessToken activeUser
    let refreshToken := env.generateRefreshToken activeUser
    .ok ([("accessToken", accessToken), ("refreshToken", refreshToken)],
         saveUser store { activeUser with refreshToken := some refreshToken })

/-- The cookies and the body of a token request. -/
structure RefreshRequest where
  cookieRefreshToken : Option String
  bodyRefreshToken : Option String
deriving DecidableEq, Repr

/-- What `refreshAccessToken` sends: the values given to the two cookies and the
two fields of the body; `none` is `undefined`. -/
structure TokenAnswer where
  accessTokenCookie : Option String
  refreshTokenCookie : Option String
  accessToken : Option String
  refreshToken : Option String
deriving DecidableEq, Repr

/-- The value `req.cookies.refreshToken || req.body.refreshToken`. -/
def RefreshRequest.incoming (req : RefreshRequest) : Option String :=
  if truthy req.cookieRefreshToken then req.cookieRefreshToken else req.bodyRefreshToken

/-- The handler `refreshAccessToken`. -/
def refreshAccessToken (env : Env) (store : Store) (req : RefreshRequest) : Run TokenAnswer :=
  let incomingRefreshToken := req.incoming
  if !truthy incomingRefreshToken then ⟨.apiError 401 "unauthorized request", store, []⟩
  else
    match env.verifyRefreshToken (incomingRefreshToken.getD "") with
    | none => ⟨.exception "JsonWebTokenError", store, []⟩
    | some decodedId =>
      match findUserById store decodedId with
      | none => ⟨.apiError 401 "Invalid refresh token", store, [.userFindById]⟩
      | some user =>
        if incomingRefreshToken ≠ user.refreshToken then
          ⟨.apiError 401 "Refresh token is expired or used", store, [.userFindById]⟩
        else
          match generateAccessAndRefreshTokens env store user._id with
          | .error (code, message) =>
            ⟨.apiError code message, store, [.userFindById, .userFindById]⟩
          | .ok (tokens, store1) =>
            let accessToken := field tokens "accessToken"
            let newRefreshToken := field tokens "newRefreshToken"
            ⟨.json 200
              { accessTokenCookie := accessToken, refreshTokenCookie := newRefreshToken,
                accessToken := accessToken, refreshToken := newRefreshToken },
             store1, [.userFindById, .userFindById, .userSave]⟩

/-- The handler `changeCurrentPassword`; `caller` is `req.user?._id`. -/
def changeCurrentPassword (env : Env) (store : Store) (caller : Option ObjectId)
    (oldPassword newPassword : Option String) : Run Unit :=
  if !truthy oldPassword || !truthy newPassword then
    ⟨.apiError 400 "Old password and new password are required", store, []⟩
  else
    match findUserById store caller with
    | none => ⟨.apiError 404 "User not found", store, [.userFindById]⟩
    | some user =>
      if !env.isPasswordCorrect user (oldPassword.getD "") then
        ⟨.apiError 400 "Invalid old password", store, [.userFindById]⟩
      else
        ⟨.json 200 (),
         saveUser store { user with password := env.hashPassword (newPassword.getD "") },
         [.userFindById, .userSave]⟩

/-! ## `updateVideo`, `deleteVideo`, `togglePublishStatus`

The updates are taken as the controller writes them: timestamps that a schema
may maintain on its own are not modelled. -/

/-- The call `Video.findById`, for an identifier given in its canonical
rendering (24 hexadecimal digits, the letters in lower case), on which the cast
of the argument to an `ObjectId` is the identity. -/
def findVideoById (store : Store) (id : String) : Option Video :=
  store.videos.find? (fun v => v._id = id)

/-- Whether a string is the canonical rendering of an `ObjectId`: 24 hexadecimal
digits, the letters in lower case. -/
def isCanonicalObjectId (s : String) : Bool :=
  s.length = 24 &&
    s.toList.all (fun c => (48 ≤ c.toNat && c.toNat ≤ 57) || (97 ≤ c.toNat && c.toNat ≤ 102))

/-- The effect of an update addressed by `_id`: the first document that
satisfies the filter is changed. -/
def updateFirst {α : Type} (p : α → Bool) (f : α → α) : List α → List α
  | [] => []
  | x :: xs => if p x then f x :: xs else x :: updateFirst p f xs

/-- The body and the file of `PATCH /videos/:videoId`; `file` is the path of
`req.file`, `none` when no file came with the request. -/
structure UpdateVideoRequest where
  title : Option String
  description : Option String
  file : Option String
deriving DecidableEq, Repr

/-- The handler `updateVideo`; `caller` is the `_id` of `req.user`, `none` when
`req.user` is `undefined`: the chain `req.user?._id.toString()` then stops at
`undefined`, which differs from the owner of every video. -/
def updateVideo (env : Env) (store : Store) (caller : Option ObjectId) (videoId : String)
    (req : UpdateVideoRequest) : Run Video :=
  if !truthy req.title && !truthy req.description && req.file.isNone then
    ⟨.apiError 400 "At least one field is required", store, []⟩
  else if !env.isValidObjectId videoId then ⟨.apiError 400 "Invalid videoId", store, []⟩
  else
    match findVideoById store videoId with
    | none => ⟨.apiError 400 "video does not exist", store, [.videoFindById]⟩
    | some videoExist =>
      match caller with
      | none =>
        ⟨.apiError 400 "you do not have permission to perform this action", store,
          [.videoFindById]⟩
      | some callerId =>
        if videoExist.owner ≠ callerId then
          ⟨.apiError 400 "you do not have permission to perform this action", store,
            [.videoFindById]⟩
        else
          let updatedThumbnail : Option MediaRef :=
            if truthy req.file then env.uploadOnCloudinary req.file else none
          let uploadedUrl : Bool :=
            match updatedThumbnail with
            | some t => t.url ≠ ""
            | none => false
          if truthy req.file && !uploadedUrl then
            ⟨.apiError 500 "something went wrong", store, [.videoFindById]⟩
          else
            let video : Video :=
              { videoExist with
                title := if truthy req.title then req.title.getD "" else videoExist.title,
                description :=
                  if truthy req.description then req.description.getD ""
                  else videoExist.description,
                thumbnail :=
                  match updatedThumbnail with
                  | some t => if t.url ≠ "" then t else videoExist.thumbnail
                  | none => videoExist.thumbnail }
            let store1 : Store :=
              { store with
                videos := updateFirst (fun v => v._id = videoExist._id) (fun _ => video)
                  store.videos }
            if videoExist.thumbnail.public_id ≠ video.thumbnail.public_id ∧ uploadedUrl = true ∧
                env.destroyOnCloudinary videoExist.thumbnail.public_id = false then
              ⟨.apiError 500 "something went wrong", store1,
                [.videoFindById, .videoFindByIdAndUpdate]⟩
            else ⟨.json 200 video, store1, [.videoFindById, .videoFindByIdAndUpdate]⟩

/-- The handler `deleteVideo`.  The value it hands to `ApiResponse` is the
handler function itself, which JSON drops, so the answer carries no data.  A
rejected media deletion is caught and answered with 500 after the video record
is gone and before its likes and comments are removed. -/
def deleteVideo (env : Env) (store : Store) (caller : Option ObjectId) (videoId : String) :
    Run Unit :=
  if !env.isValidObjectId videoId then ⟨.apiError 400 "Invalid videoId", store, []⟩
  else
    match findVideoById store videoId with
    | none => ⟨.apiError 400 "video does not exist", store, [.videoFindById]⟩
    | some videoExist =>
      match caller with
      | none =>
        ⟨.apiError 400 "you do not have permission to perform this action", store,
          [.videoFindById]⟩
      | some callerId =>
        if videoExist.owner ≠ callerId then
          ⟨.apiError 400 "you do not have permission to perform this action", store,
            [.videoFindById]⟩
        else
          let store1 : Store :=
            { store with videos := store.videos.eraseP (fun v => v._id = videoExist._id) }
          if env.destroyOnCloudinary videoExist.videoFile.public_id = false ∨
              env.destroyOnCloudinary videoExist.thumbnail.public_id = false then
            ⟨.apiError 500 "something went wrong", store1, [.videoFindById, .videoDeleteOne]⟩
          else
            let store2 : Store :=
              { store1 with likes := store1.likes.filter (fun l => l.video ≠ videoId) }
            let store3 : Store :=
              { store2 with comments := store2.comments.filter (fun c => c.video ≠ videoId) }
            ⟨.json 200 (), store3,
              [.videoFindById, .videoDeleteOne, .likeDeleteMany, .commentDeleteMany]⟩

/-- The selection `_id isPublished` of a video. -/
structure PublishStatus where
  _id : ObjectId
  isPublished : Bool
deriving DecidableEq, Repr

/-- The handler `togglePublishStatus`. -/
def togglePublishStatus (env : Env) (store : Store) (caller : Option ObjectId)
    (videoId : String) : Run PublishStatus :=
  if !env.isValidObjectId videoId then ⟨.apiError 400 "Invalid videoId", store, []⟩
  else
    match findVideoById store videoId with
    | none => ⟨.apiError 400 "video does not exist", store, [.videoFindById]⟩
    | some videoExist =>
      match caller with
      | none =>
        ⟨.apiError 400 "you do not have permission to perform this action", store,
          [.videoFindById]⟩
      | some callerId =>
        if videoExist.owner ≠ callerId then
          ⟨.apiError 400 "you do not have permission to perform this action", store,
            [.videoFindById]⟩
        else
          ⟨.json 200 ⟨videoExist._id, !videoExist.isPublished⟩,
           { store with
             videos := updateFirst (fun v => v._id = videoExist._id)
               (fun v => { v with isPublished := !videoExist.isPublished }) store.videos },
           [.videoFindById, .videoFindByIdAndUpdate]⟩

/-! ## `logoutUser` and `updateAccountDetails` -/

/-- What `logoutUser` sends: the names of the cookies it clears; the data of the
body is the empty object. -/
structure LogoutAnswer where
  clearedCookies : List String
deriving DecidableEq, Repr

/-- The handler `logoutUser`; `caller` is the `_id` of `req.user`, read without
optional chaining, so a missing `req.user` throws. -/
def logoutUser (store : Store) (caller : Option ObjectId) : Run LogoutAnswer :=
  match caller with
  | none => ⟨.exception "TypeError: req.user is undefined", store, []⟩
  | some callerId =>
    ⟨.json 200 ⟨["accessToken", "refreshToken"]⟩,
     { store with
       users := updateFirst (fun u => u._id = callerId)
         (fun u => { u with refreshToken := none }) store.users },
     [.userFindByIdAndUpdate]⟩

/-- The body of `updateAccountDetails`. -/
structure AccountUpdate where
  fullName : Option String
  username : Option String
  email : Option String
deriving DecidableEq, Repr

/-- Modelled from the spec: the unique indexes on `username` and `email` that the
specification gives the user entity (the file `models/user.model.js` is absent),
seen from an update: giving the user `id` this username and this email collides
when another user already holds one of them. -/
def duplicateKey (store : Store) (id : ObjectId) (username email : String) : Bool :=
  store.users.any (fun u => u._id ≠ id && (u.username = username || u.email = email))

/-- The handler `updateAccountDetails` for the authenticated user `caller`.  The
three fields go into `$set` as they are in the body and are cast by the schema,
the username through its setter; a field that is `undefined` leaves the stored
value alone.  An update the unique indexes refuse ends in a duplicate-key
error. -/
def updateAccountDetails (env : Env) (store : Store) (caller : ObjectId)
    (req : AccountUpdate) : Run PublicUser :=
  if !truthy req.fullName && !truthy req.username && !truthy req.email then
    ⟨.apiError 400 "At least one field is required to update", store, []⟩
  else
    match findUserById store (some caller) with
    | none =>
      ⟨.apiError 500 "Something went wrong while updating user", store,
        [.userFindByIdAndUpdate]⟩
    | some user =>
      let updated : User :=
        { user with
          email := req.email.getD user.email,
          fullName := req.fullName.getD user.fullName,
          username := (req.username.map (castUsername env)).getD user.username }
      if duplicateKey store user._id updated.username updated.email then
        ⟨.exception "MongoServerError: E11000 duplicate key error", store,
          [.userFindByIdAndUpdate]⟩
      else
        ⟨.json 200 updated.toPublic,
         { store with
           users := updateFirst (fun u => u._id = caller) (fun _ => updated) store.users },
         [.userFindByIdAndUpdate]⟩

/-- The store with nothing in it. -/
def emptyStore : Store :=
  { users := [], videos := [], subscriptions := [], likes := [], comments := [] }

/-- The stores that can be reached from the empty store by calls of
`registerUser` and `updateAccountDetails`. -/
inductive Reachable (env : Env) : Store → Prop where
  | empty : Reachable env emptyStore
  | register (store : Store) (req : RegisterRequest) :
      Reachable env store → Reachable env (registerUser env store req).store
  | update (store : Store) (caller : ObjectId) (req : AccountUpdate) :
      Reachable env store → Reachable env (updateAccountDetails env store caller req).store

/-! ## The pipeline of `getVideoById` on documents

The handler `getVideoById` above returns typed records.  Here the same pipeline
is run on documents with named fields, so that the effect of the two `$project`
stages on the field names can be stated. -/

/-- A document value: a leaf, an array, or a document with named fields. -/
inductive Bson where
  | null
  | bool (b : Bool)
  | num (n : Nat)
  | str (s : String)
  | oid (id : ObjectId)
  | arr (items : List Bson)
  | doc (fields : List (String × Bson))
deriving Repr

namespace Bson

/-- The field names of a document, top level only. -/
def keys : Bson → List String
  | .doc fields => fields.map (fun kv => kv.1)
  | _ => []

/-- The value of a field of a document; `none` when the field is missing. -/
def getField (d : Bson) (name : String) : Option Bson :=
  match d with
  | .doc fields => (fields.find? (fun kv => kv.1 = name)).map (fun kv => kv.2)
  | _ => none

/-- Sets a field: an existing field keeps its place and gets the value, a new
field goes to the end. -/
def setFieldIn (name : String) (value : Bson) : List (String × Bson) → List (String × Bson)
  | [] => [(name, value)]
  | (k, v) :: rest =>
    if k = name then (k, value) :: rest else (k, v) :: setFieldIn name value rest

/-- Sets a field of a document. -/
def setField (d : Bson) (name : String) (value : Bson) : Bson :=
  match d with
  | .doc fields => .doc (setFieldIn name value fields)
  | other => other

/-- Removes a field of a document. -/
def removeField (d : Bson) (name : String) : Bson :=
  match d with
  | .doc fields => .doc (fields.filter (fun kv => kv.1 ≠ name))
  | other => other

/-- The items of an array field; none when the field is missing or no array. -/
def arrayField (d : Bson) (name : String) : List Bson :=
  match d.getField name with
  | some (.arr items) => items
  | _ => []

/-- The path `$array.field`: the values of a field over the documents of an
array field, skipping the documents that lack it. -/
def pathValues (d : Bson) (array name : String) : List Bson :=
  (d.arrayField array).filterMap (fun item => item.getField name)

/-- Equality of two identifier values, as `$in` compares them here: `null` only
equals `null`, an identifier only the same identifier. -/
def sameId : Bson → Bson → Bool
  | .null, .null => true
  | .oid a, .oid b => a = b
  | _, _ => false

/-- The expression `$in: [value, array]`. -/
def inArray (value : Bson) (items : List Bson) : Bool :=
  items.any (fun item => sameId value item)

end Bson

mutual

/-- All field names that occur in a value, at any depth. -/
def Bson.allKeys : Bson → List String
  | .doc fields => allKeysOfFields fields
  | .arr items => allKeysOfItems items
  | .null => []
  | .bool _ => []
  | .num _ => []
  | .str _ => []
  | .oid _ => []

/-- All field names that occur in a list of fields, at any depth. -/
def allKeysOfFields : List (String × Bson) → List String
  | [] => []
  | (k, v) :: rest => k :: (Bson.allKeys v ++ allKeysOfFields rest)

/-- All field names that occur in a list of values, at any depth. -/
def allKeysOfItems : List Bson → List String
  | [] => []
  | v :: rest => Bson.allKeys v ++ allKeysOfItems rest

end

/-- One entry of an inclusion `$project`: `field: 1` or `field.sub: 1`. -/
inductive Include where
  | whole (name : String)
  | sub (name : String) (subfield : String)
deriving DecidableEq, Repr

/-- The subfields an inclusion list asks of a field. -/
def subfieldsOf (spec : List Include) (name : String) : List String :=
  spec.filterMap (fun i =>
    match i with
    | .sub n subfield => if n = name then some subfield else none
    | .whole _ => none)

/-- The projection of a nested document on subfields. -/
def projectSubdocument (subfields : List String) (fields : List (String × Bson)) : Bson :=
  .doc (fields.filter (fun kv => subfields.contains kv.1))

/-- The value a field keeps under `field.sub: 1`: a document keeps the listed
subfields, an array keeps its documents so reduced, a leaf is dropped. -/
def projectNested (subfields : List String) : Bson → Option Bson
  | .doc fields => some (projectSubdocument subfields fields)
  | .arr items =>
    some (.arr (items.filterMap (fun item =>
      match item with
      | .doc fields => some (projectSubdocument subfields fields)
      | _ => none)))
  | _ => none

/-- What an inclusion `$project` keeps of one field: `_id` always, a field listed
whole as it is, a field listed through subfields reduced to them. -/
def projectField (spec : List Include) (kv : String × Bson) : Option (String × Bson) :=
  if kv.1 = "_id" then some kv
  else if spec.contains (.whole kv.1) then some kv
  else
    match subfieldsOf spec kv.1 with
    | [] => none
    | subfields => (projectNested subfields kv.2).map (fun v => (kv.1, v))

/-- The stage `$project` with an inclusion list. -/
def project (spec : List Include) : Bson → Bson
  | .doc fields => .doc (fields.filterMap (projectField spec))
  | other => other

/-- A media reference as a document. -/
def MediaRef.toBson (m : MediaRef) : Bson :=
  .doc [("url", .str m.url), ("public_id", .str m.public_id)]

/-- A user as the document stored in `users`; `refreshToken` is a field only
while a token is persisted. -/
def User.toBson (u : User) : Bson :=
  .doc ([("_id", .oid u._id), ("username", .str u.username), ("email", .str u.email),
         ("fullName", .str u.fullName), ("password", .str u.password),
         ("avatar", u.avatar.toBson), ("coverImage", u.coverImage.toBson)] ++
        (match u.refreshToken with
         | some token => [("refreshToken", Bson.str token)]
         | none => []) ++
        [("watchHistory", .arr (u.watchHistory.map Bson.oid)),
         ("createdAt", .num u.createdAt), ("updatedAt", .num u.updatedAt)])

/-- A subscription as the document stored in `subscriptions`. -/
def Subscription.toBson (s : Subscription) : Bson :=
  .doc [("_id", .oid s._id), ("subscriber", .oid s.subscriber), ("channel", .oid s.channel)]

/-- A like as the document stored in `likes`. -/
def Like.toBson (l : Like) : Bson :=
  .doc [("_id", .oid l._id), ("video", .oid l.video), ("likedBy", .oid l.likedBy)]

/-- A video as the document stored in `videos`. -/
def Video.toBson (v : Video) : Bson :=
  .doc [("_id", .oid v._id), ("owner", .oid v.owner), ("title", .str v.title),
        ("description", .str v.description), ("videoFile", v.videoFile.toBson),
        ("thumbnail", v.thumbnail.toBson), ("duration", .num v.duration),
        ("views", .num v.views), ("isPublished", .bool v.isPublished),
        ("createdAt", .num v.createdAt), ("updatedAt", .num v.updatedAt)]

/-- The value sent for `req.user?._id`: the identifier, or `null` when absent. -/
def viewerValue : Option ObjectId → Bson
  | some id => .oid id
  | none => .null

/-- The inclusion list of the inner `$project`, on the owner. -/
def ownerProjection : List Include :=
  [.whole "username", .sub "avatar" "url", .whole "subscribersCount", .whole "isSubscribed"]

/-- The inclusion list of the final `$project`, on the video. -/
def videoProjection : List Include :=
  [.whole "videoFile", .whole "thumbnail", .whole "title", .whole "description",
   .whole "views", .whole "createdAt", .whole "duration", .whole "comments", .whole "owner",
   .whole "likesCount", .whole "isLiked"]

/-- The inner pipeline of the `$lookup` from `users`, on the document of one
owner: `$lookup` of the subscriptions whose `channel` is the owner into
`subscribers`, `$addFields` of `subscribersCount` and `isSubscribed`, `$project`. -/
def ownerDocument (store : Store) (viewer : Option ObjectId) (u : User) : Bson :=
  let joined := u.toBson.setField "subscribers"
    (.arr ((store.subscriptions.filter (fun s => s.channel = u._id)).map Subscription.toBson))
  let added :=
    (joined.setField "subscribersCount" (.num (joined.arrayField "subscribers").length)).setField
      "isSubscribed"
      (.bool (Bson.inArray (viewerValue viewer) (joined.pathValues "subscribers" "subscriber")))
  project ownerProjection added

/-- The pipeline of `getVideoById` after the `$match`, on the document of one
video: `$lookup` of its likes into `likes`, `$lookup` of its owner (through the
inner pipeline) into `owner`, `$addFields` of `likesCount`, `owner` (the first
joined owner, or no field) and `isLiked`, all computed from the joined
document, and the final `$project`. -/
def videoDocument (store : Store) (viewer : Option ObjectId) (v : Video) : Bson :=
  let withLikes := v.toBson.setField "likes"
    (.arr ((store.likes.filter (fun l => l.video = v._id)).map Like.toBson))
  let joined := withLikes.setField "owner"
    (.arr ((store.users.filter (fun u => u._id = v.owner)).map (ownerDocument store viewer)))
  let withCount := joined.setField "likesCount" (.num (joined.arrayField "likes").length)
  let withOwner :=
    match (joined.arrayField "owner").head? with
    | some owner => withCount.setField "owner" owner
    | none => withCount.removeField "owner"
  let added := withOwner.setField "isLiked"
    (.bool (Bson.inArray (viewerValue viewer) (joined.pathValues "likes" "likedBy")))
  project videoProjection added

/-- The owner record of the typed answer as a document. -/
def VideoOwner.toBson (o : VideoOwner) : Bson :=
  .doc [("_id", .oid o._id), ("username", .str o.username),
        ("avatar", .doc [("url", .str o.avatarUrl)]),
        ("subscribersCount", .num o.subscribersCount), ("isSubscribed", .bool o.isSubscribed)]

/-- The typed answer of `getVideoById` as a document. -/
def VideoDetail.toBson (d : VideoDetail) : Bson :=
  .doc ([("_id", Bson.oid d._id)] ++
        (match d.owner with
         | some o => [("owner", o.toBson)]
         | none => []) ++
        [("title", .str d.title), ("description", .str d.description),
         ("videoFile", d.videoFile.toBson), ("thumbnail", d.thumbnail.toBson),
         ("duration", .num d.duration), ("views", .num d.views),
         ("createdAt", .num d.createdAt), ("likesCount", .num d.likesCount),
         ("isLiked", .bool d.isLiked)])

/-- A user with the three fields that must stay private blanked. -/
def User.withoutSecrets (u : User) : User :=
  { u with password := "", refreshToken := none, email := "" }

/-- A store in which every user has the private fields blanked. -/
def Store.withoutSecrets (store : Store) : Store :=
  { store with users := store.users.map User.withoutSecrets }

/-- The videos the pipeline of a query without owner filter starts from: the
collection, or what the search index returns when `query` is given. -/
def listingSource (env : Env) (store : Store) (q : ListQuery) : List Video :=
  if truthy q.query then env.searchVideos (q.query.getD "") store.videos else store.videos

/-- The stages of a query without owner filter that follow the optional search. -/
def listingStages (q : ListQuery) : List Stage :=
  [.matchPublished, .lookupOwnerDetails, .unwindOwnerDetails,
   .sort (q.sortBy.getD "createdAt") (if q.sortType = some "asc" then 1 else -1)]

/-- The documents that reach the facet for a query without owner filter: these
are counted by `$count` and paged by `$skip` and `$limit`. -/
def listedVideos (env : Env) (store : Store) (q : ListQuery) : List ListedVideo :=
  (listingStages q).foldl (fun docs stage => runStage store stage docs)
    ((listingSource env store q).map (fun v => ⟨v, .absent⟩))

/-- A number that is not `NaN` and not below one: plus infinity or a finite value
of at least one. -/
def JSNumber.atLeastOne (x : JSNumber) : Prop :=
  x = .inf false ∨ ∃ d : Decimal, x = .fin d ∧ 1 ≤ d.toRat

/-- Whether a response is a JSON answer. -/
def Response.isJson {α : Type} : Response α → Bool
  | .json _ _ => true
  | _ => false

/-! ## Sample data -/

/-- A media reference used by the sample documents. -/
def sampleMedia : MediaRef := ⟨"https://media.example/a.png", "a"⟩

/-- A sample user. -/
def sampleUser (id name : String) : User :=
  { _id := id, username := name, email := name ++ "@example.org", fullName := name,
    password := "hash:" ++ name, avatar := sampleMedia, coverImage := sampleMedia,
    refreshToken := none, watchHistory := [], createdAt := 0, updatedAt := 0 }

/-- A sample video of the user `u1`, created at time `i`. -/
def sampleVideo (i : Nat) (published : Bool) : Video :=
  { _id := "v" ++ toString i, owner := "u1", title := "title " ++ toString i,
    description := "", videoFile := sampleMedia, thumbnail := sampleMedia, duration := 60,
    views := 0, isPublished := published, createdAt := i, updatedAt := i }

/-- Collaborators for the samples: identifiers are well formed when they are 24
characters long, the search index returns the whole collection, the two refresh
tokens of bob verify, a password is stored behind the marker `hash:`, and
lower-casing is that of the ASCII letters (the sample names are ASCII). -/
def sampleEnv : Env :=
  { isValidObjectId := fun s => s.length = 24,
    searchVideos := fun _ vs => vs,
    uploadOnCloudinary := fun path => path.map (fun f => ⟨"https://media.example/" ++ f, f⟩),
    verifyRefreshToken := fun t =>
      if t = "refresh-1-of-bob" ∨ t = "refresh-2-of-bob" then some (some "650000000000000000000002")
      else none,
    generateAccessToken := fun u => "access-of-" ++ u.username,
    generateRefreshToken := fun u => "refresh-2-of-" ++ u.username,
    isPasswordCorrect := fun u pw => u.password = "hash:" ++ pw,
    hashPassword := fun pw => "hash:" ++ pw,
    newObjectId := fun st => "u" ++ toString (st.users.length + 1),
    now := 100,
    destroyOnCloudinary := fun _ => true,
    toLowerCase := asciiToLowerCase }

/-- A store with one user, twelve published videos and two unpublished ones. -/
def sampleStore : Store :=
  { users := [sampleUser "u1" "alice"],
    videos := (List.range 14).map (fun i => sampleVideo i (decide (i < 12))),
    subscriptions := [], likes := [], comments := [] }

/-- A store with one user, one published video and one unpublished video. -/
def smallStore : Store :=
  { users := [sampleUser "u1" "alice"],
    videos := [sampleVideo 0 false, sampleVideo 1 true],
    subscriptions := [], likes := [], comments := [] }

/-- The query `?page=..&limit=..&sortType=asc`. -/
def pageQuery (page limit : String) : ListQuery :=
  { page := some page, limit := some limit, sortBy := none, sortType := some "asc",
    userId := none, query := none }

/-- The answer to the default query on `smallStore`. -/
def smallPayload : ListPayload :=
  { videos := [⟨sampleVideo 1 true, .object ⟨"u1", "alice", sampleMedia.url⟩⟩],
    pagination := { currentPage := some 1, limit := some 10, totalVideos := 1 } }

/-- The query `?userId=`: the parameter is in the url, with an empty value. -/
def emptyUserIdQuery : ListQuery :=
  { page := none, limit := none, sortBy := none, sortType := none, userId := some "",
    query := none }

/-- The query `?page=abc`. -/
def badPageQuery : ListQuery :=
  { page := some "abc", limit := none, sortBy := none, sortType := none, userId := none,
    query := none }

/-- The identifier of the sample user alice. -/
def aliceId : ObjectId := "650000000000000000000001"

/-- The identifier of the sample user bob. -/
def bobId : ObjectId := "650000000000000000000002"

/-- The identifier of the sample video. -/
def clipId : ObjectId := "660000000000000000000001"

/-- The sample video: a published clip of alice. -/
def clip : Video :=
  { _id := clipId, owner := aliceId, title := "clip", description := "a clip",
    videoFile := sampleMedia, thumbnail := sampleMedia, duration := 60, views := 3,
    isPublished := true, createdAt := 5, updatedAt := 5 }

/-- A store where bob follows alice and has liked her clip; bob holds the
refresh token `refresh-1-of-bob`. -/
def socialStore : Store :=
  { users := [sampleUser aliceId "alice",
              { sampleUser bobId "bob" with refreshToken := some "refresh-1-of-bob" }],
    videos := [clip],
    subscriptions := [⟨"670000000000000000000001", bobId, aliceId⟩],
    likes := [⟨"680000000000000000000001", clipId, bobId⟩],
    comments := [] }

/-- The document `getVideoById` computes for the clip when bob looks at it. -/
def clipDetail : VideoDetail :=
  { _id := clipId, videoFile := sampleMedia, thumbnail := sampleMedia, title := "clip",
    description := "a clip", views := 3, createdAt := 5, duration := 60,
    owner := some { _id := aliceId, username := "alice", avatarUrl := sampleMedia.url,
                    subscribersCount := 1, isSubscribed := true },
    likesCount := 1, isLiked := true }

/-- A registration as `Alice` with an unused email and an avatar file. -/
def aliceAgain : RegisterRequest :=
  { fullName := some "Alice B", email := some "alice.b@example.org", username := some "Alice",
    password := some "secret", avatarLocalPath := some "avatar.png",
    coverImageLocalPath := none }

/-- The store `socialStore` after bob has refreshed his tokens. -/
def rotatedStore : Store :=
  { socialStore with
    users := [sampleUser aliceId "alice",
              { sampleUser bobId "bob" with refreshToken := some "refresh-2-of-bob" }] }

/-- The identifier of a second sample video. -/
def otherClipId : ObjectId := "660000000000000000000002"

/-- A second clip of alice. -/
def otherClip : Video := { clip with _id := otherClipId, title := "other clip" }

/-- A store with two clips of alice, each liked and commented by bob. -/
def busyStore : Store :=
  { users := [sampleUser aliceId "alice", sampleUser bobId "bob"],
    videos := [clip, otherClip],
    subscriptions := [⟨"670000000000000000000001", bobId, aliceId⟩],
    likes := [⟨"680000000000000000000001", clipId, bobId⟩,
              ⟨"680000000000000000000002", otherClipId, bobId⟩],
    comments := [⟨"690000000000000000000001", clipId, bobId, "nice"⟩,
                 ⟨"690000000000000000000002", otherClipId, bobId, "nice too"⟩] }

/-- The store `busyStore` once alice has deleted her first clip. -/
def busyStoreAfterDelete : Store :=
  { busyStore with
    videos := [otherClip],
    likes := [⟨"680000000000000000000002", otherClipId, bobId⟩],
    comments := [⟨"690000000000000000000002", otherClipId, bobId, "nice too"⟩] }

/-- An update that only changes the title. -/
def retitle : UpdateVideoRequest := { title := some "new title", description := none, file := none }

/-- A registration as `alice`. -/
def aliceSignup : RegisterRequest :=
  { fullName := some "Alice", email := some "alice@example.org", username := some "alice",
    password := some "secret", avatarLocalPath := some "avatar.png",
    coverImageLocalPath := none }

/-- An account update that spells the username `Alice`. -/
def aliceRename : AccountUpdate :=
  { fullName := some "Alice", username := some "Alice", email := some "alice@example.org" }

/-- The store after alice has registered and then updated her account. -/
def renamedStore : Store :=
  (updateAccountDetails sampleEnv (registerUser sampleEnv emptyStore aliceSignup).store "u1"
    aliceRename).store

/-- A listing query that filters on the owner alice. -/
def ownerQuery : ListQuery :=
  { page := none, limit := none, sortBy := none, sortType := none, userId := some aliceId,
    query := none }

/-- A listing query with a search text. -/
def searchQuery : ListQuery :=
  { page := none, limit := none, sortBy := some "title", sortType := some "asc",
    userId := none, query := some "cats" }

/-! ## Facts about the number coercions -/

theorem Decimal.toInt?_eq_some_iff (d : Decimal) (z : Int) :
    d.toInt? = some z ↔ d.mant = z * 10 ^ d.scale := by
  have hpos : (10 : Int) ^ d.scale ≠ 0 := pow_ne_zero _ (by norm_num)
  unfold Decimal.toInt?
  constructor
  · intro h
    split at h
    · rename_i hmod
      have hz : d.mant / 10 ^ d.scale = z := by simpa using h
      rw [← hz]
      exact (Int.ediv_mul_cancel (Int.dvd_of_emod_eq_zero hmod)).symm
    · simp at h
  · intro h
    rw [h, Int.mul_emod_left, if_pos rfl, Int.mul_ediv_cancel _ hpos]

theorem Decimal.lt_one_eq_false_iff (d : Decimal) :
    d.lt (Decimal.ofInt 1) = false ↔ 1 ≤ d.toRat := by
  have hpos : (0 : ℚ) < (10 : ℚ) ^ d.scale := by positivity
  unfold Decimal.lt Decimal.ofInt Decimal.toRat
  simp only [pow_zero, mul_one, one_mul, decide_eq_false_iff_not, not_lt]
  rw [le_div_iff₀ hpos, one_mul]
  constructor
  · intro h
    have : ((10 ^ d.scale : Int) : ℚ) ≤ (d.mant : ℚ) := by exact_mod_cast h
    simpa using this
  · intro h
    have : ((10 ^ d.scale : Int) : ℚ) ≤ (d.mant : ℚ) := by simpa using h
    exact_mod_cast this

/-- A string that reads as the integer `p` with `1 ≤ p` passes the two numeric
checks of the validation. -/
theorem toNumber_int_passes (s : String) (p : Nat) (hp : 1 ≤ p)
    (h : (toNumber s).toInt? = some (p : Int)) :
    (toNumber s).isNaN = false ∧ (toNumber s).lt JSNumber.one = false := by
  cases hs : toNumber s with
  | nan => simp [hs, JSNumber.toInt?] at h
  | inf n => simp [hs, JSNumber.toInt?] at h
  | fin d =>
    rw [hs] at h
    have hm : d.mant = (p : Int) * 10 ^ d.scale := (Decimal.toInt?_eq_some_iff d p).1 h
    refine ⟨rfl, ?_⟩
    show d.lt (Decimal.ofInt 1) = false
    unfold Decimal.lt Decimal.ofInt
    simp only [pow_zero, mul_one, one_mul, decide_eq_false_iff_not, not_lt]
    rw [hm]
    have h10 : (0 : Int) < 10 ^ d.scale := by positivity
    have hp1 : (1 : Int) ≤ (p : Int) := by exact_mod_cast hp
    nlinarith

theorem JSNumber.ofDecimal_int (d : Decimal) (z : Int) (h : d.toInt? = some z)
    (hz : z.natAbs ≤ 2 ^ 53) : JSNumber.ofDecimal d = .fin ⟨z, 0⟩ := by
  unfold JSNumber.ofDecimal
  rw [h]
  simp only [hz, if_true]

theorem Decimal.toInt?_ofInt (z : Int) : (⟨z, 0⟩ : Decimal).toInt? = some z := by
  rw [Decimal.toInt?_eq_some_iff]
  simp

/-- The `$skip` argument `(page - 1) * limit` of integers `p` and `l` is the
integer `(p - 1) * l`, as long as that product is at most `2 ^ 53`, below which
no rounding takes place. -/
theorem skip_of_ints (s t : String) (p l : Nat) (hp : 1 ≤ p) (hl : 1 ≤ l)
    (hsafe : (p - 1) * l ≤ 2 ^ 53)
    (hs : (toNumber s).toInt? = some (p : Int)) (ht : (toNumber t).toInt? = some (l : Int)) :
    ((toNumber s).sub JSNumber.one).mul (toNumber t) = .fin ⟨(((p - 1) * l : Nat) : Int), 0⟩ := by
  cases hs1 : toNumber s with
  | nan => simp [hs1, JSNumber.toInt?] at hs
  | inf n => simp [hs1, JSNumber.toInt?] at hs
  | fin d =>
    cases ht1 : toNumber t with
    | nan => simp [ht1, JSNumber.toInt?] at ht
    | inf n => simp [ht1, JSNumber.toInt?] at ht
    | fin e =>
      rw [hs1] at hs
      rw [ht1] at ht
      have hd : d.mant = (p : Int) * 10 ^ d.scale := (Decimal.toInt?_eq_some_iff d p).1 hs
      have he : e.mant = (l : Int) * 10 ^ e.scale := (Decimal.toInt?_eq_some_iff e l).1 ht
      have hp1 : (p - 1 : Nat) ≤ 2 ^ 53 :=
        le_trans (Nat.le_mul_of_pos_right _ hl) hsafe
      have hsub : (d.sub (Decimal.ofInt 1)).toInt? = some (((p - 1 : Nat) : Nat) : Int) := by
        rw [Decimal.toInt?_eq_some_iff]
        simp only [Decimal.sub, Decimal.ofInt, pow_zero, mul_one, one_mul, add_zero]
        rw [hd, Nat.cast_sub hp, Nat.cast_one]
        ring
      have hsub2 : (JSNumber.fin d).sub JSNumber.one = .fin ⟨((p - 1 : Nat) : Int), 0⟩ := by
        show JSNumber.ofDecimal (d.sub (Decimal.ofInt 1)) = _
        exact JSNumber.ofDecimal_int _ _ hsub (by simpa using hp1)
      rw [hsub2]
      show JSNumber.ofDecimal ((⟨((p - 1 : Nat) : Int), 0⟩ : Decimal).mul e) = _
      apply JSNumber.ofDecimal_int
      · rw [Decimal.toInt?_eq_some_iff]
        simp only [Decimal.mul, zero_add]
        rw [he, Nat.cast_mul]
        ring
      · simpa using hsafe

/-! ## Facts about the pipeline of `getAllVideos` -/

theorem mongoose_not_imported : videoControllerImports.contains "mongoose" = false := by decide

theorem buildPipeline_ok (env : Env) (q : ListQuery) (p : Pipeline)
    (h : buildPipeline env q = .ok p) :
    truthy q.userId = false ∧
    p.stages = (if truthy q.query then [Stage.search (q.query.getD "")] else []) ++
      listingStages q ∧
    p.facet = { skip := ((toNumber (q.page.getD "1")).sub JSNumber.one).mul
                  (toNumber (q.limit.getD "10")),
                limit := parseInt (q.limit.getD "10") } := by
  unfold buildPipeline at h
  simp only [mongoose_not_imported] at h
  cases hu : truthy q.userId with
  | true =>
    rw [hu] at h
    simp only [if_true] at h
    split at h <;> simp at h
  | false =>
    rw [hu] at h
    simp only [Bool.false_eq_true, if_false] at h
    injection h with h
    subst h
    exact ⟨rfl, rfl, rfl⟩

theorem buildPipeline_no_owner (env : Env) (q : ListQuery) (hu : truthy q.userId = false) :
    buildPipeline env q = .ok
      ⟨(if truthy q.query then [Stage.search (q.query.getD "")] else []) ++ listingStages q,
       { skip := ((toNumber (q.page.getD "1")).sub JSNumber.one).mul
           (toNumber (q.limit.getD "10")),
         limit := parseInt (q.limit.getD "10") }⟩ := by
  unfold buildPipeline
  simp only [hu, Bool.false_eq_true, if_false]
  rfl

theorem runPipelineStages_listing (env : Env) (store : Store) (q : ListQuery) :
    runPipelineStages env store
      ((if truthy q.query then [Stage.search (q.query.getD "")] else []) ++ listingStages q) =
      .ok (listedVideos env store q) := by
  unfold listedVideos listingSource
  cases hq : truthy q.query <;>
    simp [runPipelineStages, listingStages, runStages]

theorem unwind_video (d d0 : ListedVideo) (h : d ∈ unwindOwnerDetails d0) :
    d.video = d0.video := by
  unfold unwindOwnerDetails at h
  split at h
  · simp at h
  · simp only [List.mem_map] at h
    obtain ⟨o, _, rfl⟩ := h
    rfl
  · simp only [List.mem_singleton] at h
    rw [h]

/-- Every document that reaches the facet is a published video of the source. -/
theorem listedVideos_from_published (env : Env) (store : Store) (q : ListQuery)
    (d : ListedVideo) (h : d ∈ listedVideos env store q) :
    d.video ∈ listingSource env store q ∧ d.video.isPublished = true := by
  unfold listedVideos listingStages at h
  simp only [List.foldl_cons, List.foldl_nil, runStage] at h
  rw [(List.perm_insertionSort _ _).mem_iff] at h
  simp only [List.mem_flatMap, List.mem_map, List.mem_filter, decide_eq_true_eq] at h
  obtain ⟨d1, ⟨d2, ⟨⟨v, hv, rfl⟩, hpub⟩, rfl⟩, hd⟩ := h
  have := unwind_video d _ hd
  simp only at this
  rw [this]
  exact ⟨hv, hpub⟩

theorem runFacet_ok (f : Facet) (docs : List ListedVideo) (r : FacetResult)
    (h : runFacet f docs = .ok r) :
    ∃ s l : Nat, f.skip.toInt? = some (s : Int) ∧ f.limit = some (l : Int) ∧ 1 ≤ l ∧
      r.data = (docs.drop s).take l ∧
      (match r.metadata.head? with | some total => total | none => 0) = docs.length := by
  unfold runFacet at h
  split at h
  · rename_i s l hs hl
    split at h
    · simp at h
    · split at h
      · simp at h
      · rename_i hs0 hl0
        injection h with h
        subst h
        refine ⟨s.toNat, l.toNat, ?_, ?_, ?_, rfl, ?_⟩
        · rw [hs, Int.toNat_of_nonneg (by omega)]
        · rw [hl, Int.toNat_of_nonneg (by omega)]
        · omega
        · cases docs <;> simp
  · simp at h

theorem unwound_videos (docs : List ListedVideo)
    (h : ∀ d ∈ docs, ∃ o, d.ownerDetails = .array [o]) :
    (docs.flatMap unwindOwnerDetails).map (fun d => d.video) = docs.map (fun d => d.video) := by
  induction docs with
  | nil => rfl
  | cons d rest ih =>
    obtain ⟨o, ho⟩ := h d (List.mem_cons_self _ _)
    have hrest := ih (fun d hd => h d (List.mem_cons_of_mem _ hd))
    simp only [List.flatMap_cons, List.map_append, List.map_cons, hrest]
    simp [unwindOwnerDetails, ho]

theorem published_wrapped (vs : List Video) :
    ((vs.map (fun v => (⟨v, .absent⟩ : ListedVideo))).filter
      (fun d => decide (d.video.isPublished = true))).map (fun d => d.video) =
    vs.filter (fun v => v.isPublished) := by
  induction vs with
  | nil => rfl
  | cons v rest ih =>
    have ih2 : ((rest.map (fun v => (⟨v, .absent⟩ : ListedVideo))).filter
        (fun d => d.video.isPublished)).map (fun d => d.video) =
        rest.filter (fun v => v.isPublished) := by simpa using ih
    cases hv : v.isPublished <;> simp [List.filter_cons, hv, ih2]

/-- When the owner of every published source video is exactly one user, the
documents that reach the facet are the published source videos, reordered. -/
theorem listedVideos_perm (env : Env) (store : Store) (q : ListQuery)
    (howner : ∀ v ∈ listingSource env store q, v.isPublished = true →
      (store.users.filter (fun u => u._id = v.owner)).length = 1) :
    ((listedVideos env store q).map (fun d => d.video)).Perm
      ((listingSource env store q).filter (fun v => v.isPublished)) := by
  unfold listedVideos listingStages
  simp only [List.foldl_cons, List.foldl_nil, runStage]
  refine ((List.perm_insertionSort _ _).map _).trans ?_
  rw [unwound_videos]
  · rw [List.map_map]
    have : ((fun d : ListedVideo => d.video) ∘ fun d : ListedVideo =>
        ({ d with ownerDetails := .array (lookupOwnerDetails store.users d.video) } :
          ListedVideo)) = fun d => d.video := rfl
    rw [this, published_wrapped]
  · intro d hd
    simp only [List.mem_map, List.mem_filter, decide_eq_true_eq] at hd
    obtain ⟨d0, ⟨⟨v, hv, rfl⟩, hpub⟩, rfl⟩ := hd
    have hlen := howner v hv hpub
    have hlen2 : (lookupOwnerDetails store.users v).length = 1 := by
      unfold lookupOwnerDetails
      rw [List.length_map]
      exact hlen
    obtain ⟨o, ho⟩ := List.length_eq_one.1 hlen2
    exact ⟨o, by simp [ho]⟩

theorem sortRel_total (field : String) (direction : Int) (a b : ListedVideo) :
    sortRel field direction a b ∨ sortRel field direction b a := by
  unfold sortRel
  split
  · exact le_total _ _
  · exact le_total _ _

theorem sortRel_trans (field : String) (direction : Int) (a b c : ListedVideo)
    (hab : sortRel field direction a b) (hbc : sortRel field direction b c) :
    sortRel field direction a c := by
  unfold sortRel at *
  split
  · rename_i h
    rw [if_pos h] at hab hbc
    exact le_trans hab hbc
  · rename_i h
    rw [if_neg h] at hab hbc
    exact le_trans hbc hab

/-- The lexicographic order on lists, one step at a time. -/
theorem list_lt_cons_iff {α : Type} [LinearOrder α] (a b : α) (as bs : List α) :
    (a :: as) < (b :: bs) ↔ a < b ∨ (a = b ∧ as < bs) := by
  constructor
  · intro h
    cases h with
    | cons h => exact Or.inr ⟨rfl, h⟩
    | rel h => exact Or.inl h
  · rintro (h | ⟨rfl, h⟩)
    · exact List.Lex.rel h
    · exact List.Lex.cons h

/-- Comparing strings by their code points is comparing their characters. -/
theorem map_toNat_lt (l₁ l₂ : List Char) :
    l₁.map Char.toNat < l₂.map Char.toNat ↔ l₁ < l₂ := by
  induction l₁ generalizing l₂ with
  | nil =>
    cases l₂ with
    | nil => exact ⟨fun h => (by cases h), fun h => (by cases h)⟩
    | cons b bs => exact ⟨fun _ => List.Lex.nil, fun _ => List.Lex.nil⟩
  | cons a as ih =>
    cases l₂ with
    | nil => exact ⟨fun h => (by cases h), fun h => (by cases h)⟩
    | cons b bs =>
      rw [List.map_cons, List.map_cons, list_lt_cons_iff, list_lt_cons_iff, ih]
      have h1 : a.toNat < b.toNat ↔ a < b := Iff.rfl
      have h2 : a.toNat = b.toNat ↔ a = b := by
        constructor
        · intro h
          exact Char.ext (UInt32.ext (by simpa [Char.toNat, UInt32.toNat] using h))
        · intro h; rw [h]
      rw [h1, h2]

/-- The sort key of a string field orders documents as the strings themselves. -/
theorem codePoints_le (s t : String) :
    s.toList.map Char.toNat ≤ t.toList.map Char.toNat ↔ s ≤ t := by
  rw [← not_lt, ← not_lt, map_toNat_lt, String.lt_iff_toList_lt]

/-- The sort key of a numeric field orders documents as the numbers themselves. -/
theorem singleton_le (a b : Nat) : ([a] : List Nat) ≤ [b] ↔ a ≤ b := by
  rw [← not_lt, list_lt_cons_iff, ← not_lt]
  constructor
  · intro h hc
    exact h (Or.inl hc)
  · rintro h (h1 | ⟨_, h2⟩)
    · exact h h1
    · cases h2

/-- The order of the `$sort` stage on the field `createdAt`, read on the
timestamps themselves. -/
theorem sortRel_createdAt (direction : Int) (a b : ListedVideo)
    (h : sortRel "createdAt" direction a b) :
    if direction = 1 then a.video.createdAt ≤ b.video.createdAt
    else b.video.createdAt ≤ a.video.createdAt := by
  unfold sortRel at h
  have hk : ∀ d : ListedVideo, sortKey "createdAt" d = [d.video.createdAt] := fun d => by
    unfold sortKey
    rw [if_pos rfl]
  rw [hk, hk] at h
  by_cases hd : direction = 1
  · rw [if_pos hd] at h ⊢
    exact (singleton_le _ _).1 h
  · rw [if_neg hd] at h ⊢
    exact (singleton_le _ _).1 h

/-- The order of the `$sort` stage on the field `title`, read on the titles
themselves. -/
theorem sortRel_title (direction : Int) (a b : ListedVideo)
    (h : sortRel "title" direction a b) :
    if direction = 1 then a.video.title ≤ b.video.title
    else b.video.title ≤ a.video.title := by
  unfold sortRel at h
  have hne : ¬ ("title" = "createdAt") := by decide
  have hk : ∀ d : ListedVideo, sortKey "title" d = d.video.title.toList.map Char.toNat :=
    fun d => by
      unfold sortKey
      rw [if_neg hne, if_pos rfl]
  rw [hk, hk] at h
  by_cases hd : direction = 1
  · rw [if_pos hd] at h ⊢
    exact (codePoints_le _ _).1 h
  · rw [if_neg hd] at h ⊢
    exact (codePoints_le _ _).1 h

/-- The documents that reach the facet are in the order of the `$sort` stage. -/
theorem listedVideos_sorted (env : Env) (store : Store) (q : ListQuery) :
    (listedVideos env store q).Sorted
      (sortRel (q.sortBy.getD "createdAt") (if q.sortType = some "asc" then 1 else -1)) := by
  unfold listedVideos listingStages
  simp only [List.foldl_cons, List.foldl_nil, runStage]
  haveI : IsTotal ListedVideo
      (sortRel (q.sortBy.getD "createdAt") (if q.sortType = some "asc" then 1 else -1)) :=
    ⟨sortRel_total _ _⟩
  haveI : IsTrans ListedVideo
      (sortRel (q.sortBy.getD "createdAt") (if q.sortType = some "asc" then 1 else -1)) :=
    ⟨sortRel_trans _ _⟩
  exact List.sorted_insertionSort _ _

/-- The answer of `getAllVideos` to a query that passes validation and carries
no owner filter, in terms of the result of the aggregation. -/
theorem getAllVideos_no_owner (env : Env) (store : Store) (q : ListQuery)
    (hv : validateListQuery q = none) (hu : truthy q.userId = false) :
    getAllVideos env store q =
      match runFacet
          { skip := ((toNumber (q.page.getD "1")).sub JSNumber.one).mul
              (toNumber (q.limit.getD "10")),
            limit := parseInt (q.limit.getD "10") } (listedVideos env store q) with
      | .error _ => ⟨.apiError 500 "ERROR:fetching videos", store, [.videoAggregate]⟩
      | .ok video =>
        ⟨.json 200
          { videos := video.data,
            pagination :=
              { currentPage := parseInt (q.page.getD "1"),
                limit := parseInt (q.limit.getD "10"),
                totalVideos := match video.metadata.head? with
                  | some total => total
                  | none => 0 } },
         store, [.videoAggregate]⟩ := by
  unfold getAllVideos
  rw [hv]
  simp only [buildPipeline_no_owner env q hu, videoAggregate, runPipelineStages_listing]

theorem validateListQuery_some (q : ListQuery) (f : Response ListPayload)
    (h : validateListQuery q = some f) : ∃ msg, f = .apiError 400 msg := by
  unfold validateListQuery at h
  simp only at h
  split at h
  · exact ⟨_, (Option.some.inj h).symm⟩
  · split at h
    · exact ⟨_, (Option.some.inj h).symm⟩
    · split at h
      · exact ⟨_, (Option.some.inj h).symm⟩
      · simp at h

theorem buildPipeline_error (env : Env) (q : ListQuery) (f : Response ListPayload)
    (h : buildPipeline env q = .error f) :
    truthy q.userId = true ∧
    ((env.isValidObjectId (q.userId.getD "") = false ∧ f = .apiError 400 "Invalid userId") ∨
     (env.isValidObjectId (q.userId.getD "") = true ∧
      f = .exception "ReferenceError: mongoose is not defined")) := by
  unfold buildPipeline at h
  simp only [mongoose_not_imported] at h
  cases hu : truthy q.userId with
  | false =>
    rw [hu] at h
    simp at h
  | true =>
    refine ⟨rfl, ?_⟩
    rw [hu] at h
    simp only [if_true] at h
    cases hvalid : env.isValidObjectId (q.userId.getD "") with
    | false =>
      rw [hvalid] at h
      simp only [Bool.not_false, if_true] at h
      injection h with h
      exact Or.inl ⟨rfl, h.symm⟩
    | true =>
      rw [hvalid] at h
      simp only [Bool.not_true, Bool.false_eq_true, if_false, Bool.not_false, if_true] at h
      injection h with h
      exact Or.inr ⟨rfl, h.symm⟩

/-! ## Claims about `getAllVideos` -/

/-- C1: whatever the store and the query (page, limit, sortBy, sortType, userId,
query), when `getAllVideos` answers, every video in the returned list is
published, and `pagination.totalVideos` is the number of documents that reach the
facet, each of which is a published video of the source collection: an
unpublished video is neither returned nor counted. -/
theorem getAllVideos_never_lists_unpublished (env : Env) (store : Store) (q : ListQuery)
    (status : Nat) (payload : ListPayload)
    (h : (getAllVideos env store q).response = .json status payload) :
    (∀ d ∈ payload.videos, d.video.isPublished = true) ∧
    payload.pagination.totalVideos = (listedVideos env store q).length ∧
    (∀ d ∈ listedVideos env store q,
      d.video ∈ listingSource env store q ∧ d.video.isPublished = true) := by
  have hall : ∀ d ∈ listedVideos env store q,
      d.video ∈ listingSource env store q ∧ d.video.isPublished = true :=
    fun d hd => listedVideos_from_published env store q d hd
  cases hv : validateListQuery q with
  | some f =>
    obtain ⟨msg, rfl⟩ := validateListQuery_some q f hv
    simp [getAllVideos, hv] at h
  | none =>
    cases hb : buildPipeline env q with
    | error f =>
      obtain ⟨_, hf | hf⟩ := buildPipeline_error env q f hb
      · simp [getAllVideos, hv, hb, hf.2] at h
      · simp [getAllVideos, hv, hb, hf.2] at h
    | ok pl =>
      have hu := (buildPipeline_ok env q pl hb).1
      rw [getAllVideos_no_owner env store q hv hu] at h
      cases hf : runFacet
          { skip := ((toNumber (q.page.getD "1")).sub JSNumber.one).mul
              (toNumber (q.limit.getD "10")),
            limit := parseInt (q.limit.getD "10") } (listedVideos env store q) with
      | error e =>
        rw [hf] at h
        simp at h
      | ok r =>
        rw [hf] at h
        simp only [Response.json.injEq] at h
        obtain ⟨s, l, _, _, _, hdata, htotal⟩ := runFacet_ok _ _ r hf
        obtain ⟨_, rfl⟩ := h
        refine ⟨?_, htotal, hall⟩
        intro d hd
        simp only [hdata] at hd
        exact (hall d (List.mem_of_mem_drop (List.mem_of_mem_take hd))).2

/-- C1, on a sample: the store holds an unpublished video, the default query is
answered, and only the published video is returned and counted. -/
theorem getAllVideos_never_lists_unpublished_witness :
    (getAllVideos sampleEnv smallStore (pageQuery "1" "10")).response = .json 200 smallPayload ∧
    ((∀ d ∈ smallPayload.videos, d.video.isPublished = true) ∧
     smallPayload.pagination.totalVideos =
       (listedVideos sampleEnv smallStore (pageQuery "1" "10")).length ∧
     (∀ d ∈ listedVideos sampleEnv smallStore (pageQuery "1" "10"),
       d.video ∈ listingSource sampleEnv smallStore (pageQuery "1" "10") ∧
       d.video.isPublished = true)) :=
  ⟨by decide,
   getAllVideos_never_lists_unpublished sampleEnv smallStore (pageQuery "1" "10") 200
     smallPayload (by decide)⟩

/-- C2, as amended: for a query without owner filter whose page and limit read
as the positive integers `p` and `l` (both as numbers and through `parseInt`,
hence both exactly representable as doubles) with `(p - 1) * l` at most `2 ^ 53`
and `l` below `2 ^ 63`,
on a store where the `n` published source videos each have exactly one owner,
`getAllVideos` answers 200 with the documents at positions `(p - 1) * l` up to
`(p - 1) * l + l` of the sorted listing, that is `min l (n - (p - 1) * l)` of
them, and reports `totalVideos = n`, `currentPage = p` and `limit = l`; the
listing is the published source videos in the order of the `$sort` stage:
by `createdAt` or by `title` as the query asks, ascending for `sortType = "asc"`
and descending otherwise. -/
theorem getAllVideos_pagination (env : Env) (store : Store) (q : ListQuery) (p l n : Nat)
    (hp : 1 ≤ p) (hl : 1 ≤ l) (hsafe : (p - 1) * l ≤ 2 ^ 53) (hl63 : l < 2 ^ 63)
    (hpage : (toNumber (q.page.getD "1")).toInt? = some (p : Int))
    (hpageInt : parseInt (q.page.getD "1") = some (p : Int))
    (hlimit : (toNumber (q.limit.getD "10")).toInt? = some (l : Int))
    (hlimitInt : parseInt (q.limit.getD "10") = some (l : Int))
    (hsort : q.sortBy.getD "createdAt" ∈ validSortFields)
    (huser : truthy q.userId = false)
    (howner : ∀ v ∈ listingSource env store q, v.isPublished = true →
      (store.users.filter (fun u => u._id = v.owner)).length = 1)
    (hn : ((listingSource env store q).filter (fun v => v.isPublished)).length = n) :
    ∃ payload : ListPayload,
      (getAllVideos env store q).response = .json 200 payload ∧
      payload.videos = ((listedVideos env store q).drop ((p - 1) * l)).take l ∧
      payload.videos.length = min l (n - (p - 1) * l) ∧
      payload.pagination = { currentPage := some (p : Int), limit := some (l : Int),
                             totalVideos := n } ∧
      (listedVideos env store q).Sorted
        (sortRel (q.sortBy.getD "createdAt") (if q.sortType = some "asc" then 1 else -1)) ∧
      (q.sortBy.getD "createdAt" = "createdAt" →
        (listedVideos env store q).Pairwise (fun a b =>
          if q.sortType = some "asc" then a.video.createdAt ≤ b.video.createdAt
          else b.video.createdAt ≤ a.video.createdAt)) ∧
      (q.sortBy.getD "createdAt" = "title" →
        (listedVideos env store q).Pairwise (fun a b =>
          if q.sortType = some "asc" then a.video.title ≤ b.video.title
          else b.video.title ≤ a.video.title)) ∧
      ((listedVideos env store q).map (fun d => d.video)).Perm
        ((listingSource env store q).filter (fun v => v.isPublished)) := by
  have hperm := listedVideos_perm env store q howner
  have hsorted := listedVideos_sorted env store q
  have hcreated : q.sortBy.getD "createdAt" = "createdAt" →
      (listedVideos env store q).Pairwise (fun a b =>
        if q.sortType = some "asc" then a.video.createdAt ≤ b.video.createdAt
        else b.video.createdAt ≤ a.video.createdAt) := by
    intro hf
    rw [hf] at hsorted
    refine List.Pairwise.imp ?_ hsorted
    intro a b hab
    have := sortRel_createdAt _ a b hab
    by_cases hasc : q.sortType = some "asc"
    · simpa [hasc] using this
    · simpa [hasc] using this
  have htitle : q.sortBy.getD "createdAt" = "title" →
      (listedVideos env store q).Pairwise (fun a b =>
        if q.sortType = some "asc" then a.video.title ≤ b.video.title
        else b.video.title ≤ a.video.title) := by
    intro hf
    rw [hf] at hsorted
    refine List.Pairwise.imp ?_ hsorted
    intro a b hab
    have := sortRel_title _ a b hab
    by_cases hasc : q.sortType = some "asc"
    · simpa [hasc] using this
    · simpa [hasc] using this
  have hlen : (listedVideos env store q).length = n := by
    have := hperm.length_eq
    rw [List.length_map] at this
    rw [this, hn]
  have hpv := toNumber_int_passes _ p hp hpage
  have hlv := toNumber_int_passes _ l hl hlimit
  have hvalid : validateListQuery q = none := by
    unfold validateListQuery
    simp [hpv.1, hpv.2, hlv.1, hlv.2, hsort]
  have hskip := skip_of_ints _ _ p l hp hl hsafe hpage hlimit
  have hfacet : runFacet
      { skip := ((toNumber (q.page.getD "1")).sub JSNumber.one).mul
          (toNumber (q.limit.getD "10")),
        limit := parseInt (q.limit.getD "10") } (listedVideos env store q) =
      .ok { metadata := if (listedVideos env store q).isEmpty then []
                        else [(listedVideos env store q).length],
            data := ((listedVideos env store q).drop ((p - 1) * l)).take l } := by
    unfold runFacet
    rw [hskip, hlimitInt]
    simp only [JSNumber.toInt?, Decimal.toInt?_ofInt]
    have h1 : ¬ ((((p - 1) * l : Nat) : Int) < 0 ∨
        (2 : Int) ^ 63 ≤ (((p - 1) * l : Nat) : Int)) := by
      have h53 : (2 : Nat) ^ 53 < 2 ^ 63 := by norm_num
      have hlt : (p - 1) * l < 2 ^ 63 := lt_of_le_of_lt hsafe h53
      have hcast : ((((p - 1) * l : Nat) : Int)) < (2 : Int) ^ 63 := by exact_mod_cast hlt
      have hnn : (0 : Int) ≤ (((p - 1) * l : Nat) : Int) := Int.ofNat_nonneg _
      intro h
      rcases h with h | h
      · exact absurd hnn (not_le.2 h)
      · exact absurd hcast (not_lt.2 h)
    have h2 : ¬ ((l : Int) ≤ 0 ∨ (2 : Int) ^ 63 ≤ (l : Int)) := by
      have hcast : (l : Int) < (2 : Int) ^ 63 := by exact_mod_cast hl63
      have hpos : (0 : Int) < (l : Int) := by exact_mod_cast hl
      intro h
      rcases h with h | h
      · exact absurd hpos (not_lt.2 h)
      · exact absurd hcast (not_lt.2 h)
    simp only [if_neg h1, if_neg h2, Int.toNat_ofNat]
  refine ⟨{ videos := ((listedVideos env store q).drop ((p - 1) * l)).take l,
            pagination := { currentPage := some (p : Int), limit := some (l : Int),
                            totalVideos := n } }, ?_, rfl, ?_, rfl,
          listedVideos_sorted env store q, hcreated, htitle, hperm⟩
  · rw [getAllVideos_no_owner env store q hvalid huser, hfacet]
    simp only [hpageInt, hlimitInt]
    cases hl0 : listedVideos env store q with
    | nil =>
      rw [hl0] at hlen
      simp only [List.length_nil] at hlen
      subst hlen
      rfl
    | cons d rest =>
      rw [hl0] at hlen
      subst hlen
      rfl
  · simp only [List.length_take, List.length_drop, hlen]

/-- C2, on the sample of the specification: twelve published videos and a limit
of five; page 2 holds five videos, listed by ascending `createdAt`, and page 3
holds two, both with a total of twelve. -/
theorem getAllVideos_pagination_witness :
    (∃ payload : ListPayload,
      (getAllVideos sampleEnv sampleStore (pageQuery "2" "5")).response = .json 200 payload ∧
      payload.videos =
        ((listedVideos sampleEnv sampleStore (pageQuery "2" "5")).drop ((2 - 1) * 5)).take 5 ∧
      payload.videos.length = min 5 (12 - (2 - 1) * 5) ∧
      payload.pagination = { currentPage := some 2, limit := some 5, totalVideos := 12 } ∧
      (listedVideos sampleEnv sampleStore (pageQuery "2" "5")).Sorted (sortRel "createdAt" 1) ∧
      (listedVideos sampleEnv sampleStore (pageQuery "2" "5")).Pairwise
        (fun a b => a.video.createdAt ≤ b.video.createdAt) ∧
      ((listedVideos sampleEnv sampleStore (pageQuery "2" "5")).map (fun d => d.video)).Perm
        (sampleStore.videos.filter (fun v => v.isPublished))) ∧
    (∃ payload : ListPayload,
      (getAllVideos sampleEnv sampleStore (pageQuery "3" "5")).response = .json 200 payload ∧
      payload.videos.length = 2 ∧ payload.pagination.totalVideos = 12) := by
  constructor
  · obtain ⟨payload, h1, h2, h3, h4, h5, h6, _, h8⟩ :=
      getAllVideos_pagination sampleEnv sampleStore (pageQuery "2" "5") 2 5 12
        (by decide) (by decide) (by decide) (by decide) (by decide) (by decide) (by decide)
        (by decide) (by decide) (by decide) (by decide) (by decide)
    exact ⟨payload, h1, h2, h3, h4, h5, h6 rfl, h8⟩
  · obtain ⟨payload, h1, _, h3, h4, _⟩ :=
      getAllVideos_pagination sampleEnv sampleStore (pageQuery "3" "5") 3 5 12
        (by decide) (by decide) (by decide) (by decide) (by decide) (by decide) (by decide)
        (by decide) (by decide) (by decide) (by decide) (by decide)
    exact ⟨payload, h1, by rw [h3]; decide, by rw [h4]⟩

/-- C2 fails as stated: the limit `2.5` passes validation, yet on page 1 two
videos are returned and the reported limit is 2, which is not the accepted
value; on page 2 the same limit makes `$skip` the fraction 2.5, which the
server refuses, and the answer is a 500.  The page `1.5` with limit 10 skips
five videos and is reported as page 1. -/
theorem getAllVideos_fractional_limit :
    validateListQuery (pageQuery "1" "2.5") = none ∧
    toNumber "2.5" = .fin ⟨25, 1⟩ ∧
    (toNumber "2.5").toInt? = none ∧
    (∃ payload : ListPayload,
      (getAllVideos sampleEnv smallStore (pageQuery "1" "2.5")).response = .json 200 payload ∧
      payload.pagination.limit = some 2) ∧
    getAllVideos sampleEnv sampleStore (pageQuery "2" "2.5") =
      ⟨.apiError 500 "ERROR:fetching videos", sampleStore, [.videoAggregate]⟩ ∧
    (getAllVideos sampleEnv sampleStore (pageQuery "1.5" "10")).response =
      .json 200
        { videos := ((listedVideos sampleEnv sampleStore (pageQuery "1.5" "10")).drop 5).take 10,
          pagination := { currentPage := some 1, limit := some 10, totalVideos := 12 } } := by
  refine ⟨by decide, by decide, by decide, ?_, by decide, by decide⟩
  exact ⟨{ videos := [⟨sampleVideo 1 true, .object ⟨"u1", "alice", sampleMedia.url⟩⟩],
           pagination := { currentPage := some 1, limit := some 2, totalVideos := 1 } },
         by decide, rfl⟩

/-- The numbers of a query are doubles: a literal is rounded to the nearest one,
so twenty nines after the point read as 1, and `parseInt` of an integer beyond
`2 ^ 53` is the double next to it. -/
theorem numbers_are_doubles :
    toNumber "0.99999999999999999999" = .fin ⟨1, 0⟩ ∧
    validateListQuery (pageQuery "0.99999999999999999999" "5") = none ∧
    toNumber "0.1" = .fin ⟨1000000000000000055511151231257827021181583404541015625, 55⟩ ∧
    parseInt "9007199254740993" = some 9007199254740992 ∧
    toNumber "9007199254740993" = .fin ⟨9007199254740992, 0⟩ := by
  refine ⟨by decide, by decide, by decide, by decide, by decide⟩

theorem JSNumber.atLeastOne_of_checks (x : JSNumber) (h1 : x.isNaN = false)
    (h2 : x.lt JSNumber.one = false) : x.atLeastOne := by
  cases x with
  | nan => simp [JSNumber.isNaN] at h1
  | inf n =>
    left
    have : n = false := by simpa [JSNumber.lt, JSNumber.one] using h2
    rw [this]
  | fin d =>
    right
    exact ⟨d, rfl, (Decimal.lt_one_eq_false_iff d).1 h2⟩

theorem validateListQuery_none (q : ListQuery) (h : validateListQuery q = none) :
    (toNumber (q.page.getD "1")).isNaN = false ∧
    (toNumber (q.page.getD "1")).lt JSNumber.one = false ∧
    (toNumber (q.limit.getD "10")).isNaN = false ∧
    (toNumber (q.limit.getD "10")).lt JSNumber.one = false ∧
    q.sortBy.getD "createdAt" ∈ validSortFields := by
  unfold validateListQuery at h
  simp only at h
  split at h
  · simp at h
  · rename_i hpage
    split at h
    · simp at h
    · rename_i hlimit
      split at h
      · simp at h
      · rename_i hsort
        simp only [Bool.or_eq_true, not_or, Bool.not_eq_true] at hpage hlimit
        simp only [Bool.not_eq_true', List.contains_eq_any_beq, List.any_eq_false, beq_iff_eq,
          not_forall, Classical.not_imp, Decidable.not_not] at hsort
        refine ⟨hpage.1, hpage.2, hlimit.1, hlimit.2, ?_⟩
        obtain ⟨x, hx, hxe⟩ := hsort
        rw [hxe]
        exact hx

/-- C3, as amended: `getAllVideos` throws an `ApiError` 400 without any database
call, and leaves the store alone, whenever page or limit converts to `NaN` or to a
number below 1, whenever sortBy is outside the allow-list, or whenever userId is a
non-empty string that `isValidObjectId` rejects; and whenever the answer is not
such a 400, page and limit are numbers of at least 1 (not necessarily integers)
and sortBy is in the allow-list. -/
theorem getAllVideos_validation (env : Env) (store : Store) (q : ListQuery) :
    (((toNumber (q.page.getD "1")).isNaN = true ∨
      (toNumber (q.page.getD "1")).lt JSNumber.one = true ∨
      (toNumber (q.limit.getD "10")).isNaN = true ∨
      (toNumber (q.limit.getD "10")).lt JSNumber.one = true ∨
      q.sortBy.getD "createdAt" ∉ validSortFields ∨
      (truthy q.userId = true ∧ env.isValidObjectId (q.userId.getD "") = false)) →
      (∃ msg, (getAllVideos env store q).response = .apiError 400 msg) ∧
      (getAllVideos env store q).calls = [] ∧
      (getAllVideos env store q).store = store) ∧
    ((∀ msg, (getAllVideos env store q).response ≠ .apiError 400 msg) →
      (toNumber (q.page.getD "1")).atLeastOne ∧
      (toNumber (q.limit.getD "10")).atLeastOne ∧
      q.sortBy.getD "createdAt" ∈ validSortFields) := by
  constructor
  · intro h
    cases hv : validateListQuery q with
    | some f =>
      obtain ⟨msg, rfl⟩ := validateListQuery_some q f hv
      simp [getAllVideos, hv]
    | none =>
      obtain ⟨a, b, c, d, e⟩ := validateListQuery_none q hv
      rcases h with h | h | h | h | h | ⟨hu, hvalid⟩
      · rw [a] at h
        cases h
      · rw [b] at h
        cases h
      · rw [c] at h
        cases h
      · rw [d] at h
        cases h
      · exact absurd e h
      · have hb : buildPipeline env q = .error (.apiError 400 "Invalid userId") := by
          unfold buildPipeline
          simp [hu, hvalid]
        simp [getAllVideos, hv, hb]
  · intro h
    cases hv : validateListQuery q with
    | some f =>
      obtain ⟨msg, rfl⟩ := validateListQuery_some q f hv
      exact absurd (by simp [getAllVideos, hv]) (h msg)
    | none =>
      obtain ⟨a, b, c, d, e⟩ := validateListQuery_none q hv
      exact ⟨JSNumber.atLeastOne_of_checks _ a b, JSNumber.atLeastOne_of_checks _ c d, e⟩

/-- C3, on samples: `?page=abc` is refused with 400 before any database call, and
the accepted query `?page=1.5&limit=2` has page and limit of at least 1. -/
theorem getAllVideos_validation_witness :
    ((toNumber "abc").isNaN = true ∧
     (∃ msg, (getAllVideos sampleEnv smallStore badPageQuery).response = .apiError 400 msg) ∧
     (getAllVideos sampleEnv smallStore badPageQuery).calls = [] ∧
     (getAllVideos sampleEnv smallStore badPageQuery).store = smallStore) ∧
    ((∀ msg, (getAllVideos sampleEnv smallStore (pageQuery "1.5" "2")).response ≠
        .apiError 400 msg) ∧
     (toNumber "1.5").atLeastOne ∧ (toNumber "2").atLeastOne ∧
     "createdAt" ∈ validSortFields) := by
  have hjson : (getAllVideos sampleEnv smallStore (pageQuery "1.5" "2")).response.isJson =
      true := by decide
  have hne : ∀ msg, (getAllVideos sampleEnv smallStore (pageQuery "1.5" "2")).response ≠
      .apiError 400 msg := by
    intro msg hmsg
    rw [hmsg] at hjson
    cases hjson
  exact ⟨⟨by decide,
          (getAllVideos_validation sampleEnv smallStore badPageQuery).1 (Or.inl (by decide))⟩,
         ⟨hne, (getAllVideos_validation sampleEnv smallStore (pageQuery "1.5" "2")).2 hne⟩⟩

/-- C3 fails as stated, twice: the page `1.5` is accepted (the query is answered)
although it is not an integer, and the query `?userId=`, whose userId is present
and not a well-formed identifier, is answered instead of refused. -/
theorem getAllVideos_validation_gaps :
    ((getAllVideos sampleEnv smallStore (pageQuery "1.5" "2")).response.isJson = true ∧
     (toNumber "1.5").toInt? = none) ∧
    (emptyUserIdQuery.userId = some "" ∧ sampleEnv.isValidObjectId "" = false ∧
     (getAllVideos sampleEnv smallStore emptyUserIdQuery).response.isJson = true) := by
  decide

/-! ## Claims about `getVideoById` and `getUserChannelProfile` -/

theorem viewerIn_some (u : ObjectId) (ids : List ObjectId) :
    viewerIn (some u) ids = true ↔ u ∈ ids := by
  unfold viewerIn
  simp

theorem viewerIn_none (ids : List ObjectId) : viewerIn none ids = false := by
  unfold viewerIn
  simp

/-- C4: for every video of the store, looked up by its well-formed identifier,
and every viewer, `getVideoById` answers 200 with a non-empty list of documents,
each with `likesCount` equal to the number of Like records whose `video` is that
identifier and with `isLiked` true exactly when the viewer is the `likedBy` of one
of those records; without a viewer `isLiked` is false. -/
theorem getVideoById_likes (env : Env) (store : Store) (viewer : Option ObjectId)
    (videoId : String) (v : Video)
    (hvalid : env.isValidObjectId videoId = true) (hv : v ∈ store.videos)
    (hid : v._id = videoId) :
    ∃ data : List VideoDetail,
      (getVideoById env store viewer videoId).response = .json 200 data ∧ data ≠ [] ∧
      ∀ d ∈ data,
        d.likesCount = (store.likes.filter (fun l => l.video = videoId)).length ∧
        (∀ u, viewer = some u →
          (d.isLiked = true ↔ ∃ l ∈ store.likes, l.video = videoId ∧ l.likedBy = u)) ∧
        (viewer = none → d.isLiked = false) := by
  unfold getVideoById
  simp only [hvalid, Bool.not_true, Bool.false_eq_true, if_false]
  cases hfind : store.videos.find? (fun w => w._id = videoId) with
  | none =>
    have := List.find?_eq_none.1 hfind v hv
    simp [hid] at this
  | some videoExist =>
    have hex : videoExist._id = videoId := by
      have := List.find?_some hfind
      simpa using this
    have hmem : videoExist ∈ store.videos := List.mem_of_find?_eq_some hfind
    refine ⟨_, rfl, ?_, ?_⟩
    · intro hnil
      have : videoDetail store viewer videoExist ∈
          (store.videos.filter (fun w => w._id = videoExist._id)).map
            (videoDetail store viewer) :=
        List.mem_map_of_mem _ (List.mem_filter.2 ⟨hmem, by simp⟩)
      rw [hnil] at this
      cases this
    · intro d hd
      simp only [List.mem_map, List.mem_filter, decide_eq_true_eq] at hd
      obtain ⟨w, ⟨_, hw⟩, rfl⟩ := hd
      have hwid : w._id = videoId := hw.trans hex
      refine ⟨?_, ?_, ?_⟩
      · simp [videoDetail, hwid]
      · intro u hu
        subst hu
        simp only [videoDetail, viewerIn_some, List.mem_map, List.mem_filter,
          decide_eq_true_eq, hwid]
        constructor
        · rintro ⟨l, ⟨hl, hlv⟩, hlu⟩
          exact ⟨l, hl, hlv, hlu⟩
        · rintro ⟨l, hl, hlv, hlu⟩
          exact ⟨l, ⟨hl, hlv⟩, hlu⟩
      · intro hnone
        subst hnone
        simp [videoDetail, viewerIn_none]

/-- C4, on a sample: bob, who liked the clip, sees one like and `isLiked`. -/
theorem getVideoById_likes_witness :
    (sampleEnv.isValidObjectId clipId = true ∧ clip ∈ socialStore.videos ∧ clip._id = clipId) ∧
    ∃ data : List VideoDetail,
      (getVideoById sampleEnv socialStore (some bobId) clipId).response = .json 200 data ∧
      data ≠ [] ∧
      ∀ d ∈ data,
        d.likesCount = (socialStore.likes.filter (fun l => l.video = clipId)).length ∧
        (∀ u, some bobId = some u →
          (d.isLiked = true ↔ ∃ l ∈ socialStore.likes, l.video = clipId ∧ l.likedBy = u)) ∧
        (some bobId = none → d.isLiked = false) :=
  ⟨by decide,
   getVideoById_likes sampleEnv socialStore (some bobId) clipId clip (by decide) (by decide)
     (by decide)⟩

/-- C5, at a failing input: for the existing clip the data of the answer is the
one-element array that `Video.aggregate` resolves to, not the document itself;
an unknown identifier is refused with 404 after the lookup alone. -/
theorem getVideoById_returns_array :
    (getVideoById sampleEnv socialStore (some bobId) clipId).response =
      .json 200 [clipDetail] ∧
    getVideoById sampleEnv socialStore (some bobId) "660000000000000000000009" =
      ⟨.apiError 404 "video not found", socialStore, [.videoFindById]⟩ := by
  decide

/-- C6: when `getUserChannelProfile` answers, the profile is that of a stored user
whose username is the lower-cased requested name; its `subscribersCount` is the
number of Subscription records whose `channel` is that user, its
`channelsSubscribedToCount` the number whose `subscriber` is that user, and
`isSubscribed` is true exactly when the viewer is the `subscriber` of a record
counted in `subscribersCount`.  It answers whenever such a user exists.  The
lower-casing is that of the runtime, whatever it does to a name. -/
theorem getUserChannelProfile_counts (env : Env) (store : Store) (viewer : Option ObjectId)
    (name : String) (u0 : User) (hname : trimWhiteSpace name.toList ≠ [])
    (hu0 : u0 ∈ store.users) (hmatch : u0.username = env.toLowerCase name) :
    ∃ (profile : ChannelProfile) (u : User),
      (getUserChannelProfile env store viewer (some name)).response = .json 200 profile ∧
      u ∈ store.users ∧ u.username = env.toLowerCase name ∧ profile._id = u._id ∧
      profile.subscribersCount =
        (store.subscriptions.filter (fun s => s.channel = u._id)).length ∧
      profile.channelsSubscribedToCount =
        (store.subscriptions.filter (fun s => s.subscriber = u._id)).length ∧
      (∀ w, viewer = some w →
        (profile.isSubscribed = true ↔
          ∃ s ∈ store.subscriptions, s.channel = u._id ∧ s.subscriber = w)) ∧
      (viewer = none → profile.isSubscribed = false) := by
  unfold getUserChannelProfile
  simp only [hname, if_false]
  cases hf : store.users.filter (fun u => u.username = env.toLowerCase name) with
  | nil =>
    have : u0 ∈ store.users.filter (fun u => u.username = env.toLowerCase name) :=
      List.mem_filter.2 ⟨hu0, by simp [hmatch]⟩
    rw [hf] at this
    cases this
  | cons u rest =>
    have hu : u ∈ store.users.filter (fun u => u.username = env.toLowerCase name) := by
      rw [hf]
      exact List.mem_cons_self _ _
    obtain ⟨hmem, hun⟩ := List.mem_filter.1 hu
    refine ⟨channelProfile store viewer u, u, rfl, hmem, by simpa using hun, rfl, rfl, rfl,
      ?_, ?_⟩
    · intro w hw
      subst hw
      simp only [channelProfile, viewerIn_some, List.mem_map, List.mem_filter,
        decide_eq_true_eq]
      constructor
      · rintro ⟨s, ⟨hs, hc⟩, hsub⟩
        exact ⟨s, hs, hc, hsub⟩
      · rintro ⟨s, hs, hc, hsub⟩
        exact ⟨s, ⟨hs, hc⟩, hsub⟩
    · intro hnone
      subst hnone
      simp [channelProfile, viewerIn_none]

/-- C6, on a sample: the channel `Alice`, looked up by bob who follows it. -/
theorem getUserChannelProfile_counts_witness :
    (trimWhiteSpace "Alice".toList ≠ [] ∧ sampleUser aliceId "alice" ∈ socialStore.users ∧
      (sampleUser aliceId "alice").username = sampleEnv.toLowerCase "Alice") ∧
    ∃ (profile : ChannelProfile) (u : User),
      (getUserChannelProfile sampleEnv socialStore (some bobId) (some "Alice")).response =
        .json 200 profile ∧
      u ∈ socialStore.users ∧ u.username = sampleEnv.toLowerCase "Alice" ∧
      profile._id = u._id ∧
      profile.subscribersCount =
        (socialStore.subscriptions.filter (fun s => s.channel = u._id)).length ∧
      profile.channelsSubscribedToCount =
        (socialStore.subscriptions.filter (fun s => s.subscriber = u._id)).length ∧
      (∀ w, some bobId = some w →
        (profile.isSubscribed = true ↔
          ∃ s ∈ socialStore.subscriptions, s.channel = u._id ∧ s.subscriber = w)) ∧
      (some bobId = none → profile.isSubscribed = false) :=
  ⟨by decide,
   getUserChannelProfile_counts sampleEnv socialStore (some bobId) "Alice"
     (sampleUser aliceId "alice") (by decide) (by decide) (by decide)⟩

/-! ## Claims about the account operations -/

/-- C7: on a store that holds a user whose username is in its stored,
case-normalized form, `registerUser` called with its four fields and a username
that equals the stored one up to letter case throws an `ApiError` 409 after the
existence check alone, whatever the other fields and files are: the filter of
the check is cast by the schema, nothing is uploaded or inserted, and the store
is left as it was. -/
theorem registerUser_conflict_up_to_case (env : Env) (store : Store) (req : RegisterRequest)
    (u0 : User) (fullName email username password : String)
    (hfull : req.fullName = some fullName) (hemail : req.email = some email)
    (huser : req.username = some username) (hpw : req.password = some password)
    (hu0 : u0 ∈ store.users)
    (hnorm : env.toLowerCase u0.username = u0.username)
    (hcase : env.toLowerCase username = env.toLowerCase u0.username) :
    registerUser env store req =
      ⟨.apiError 409 "User with email or username already exists", store, [.userFindOne]⟩ := by
  have hmatch : (decide (u0.username = castUsername env username) || decide (u0.email = email))
      = true := by
    have : u0.username = castUsername env username := by
      unfold castUsername
      rw [hcase, hnorm]
    simp [this]
  obtain ⟨u, hfind⟩ : ∃ u, store.users.find?
      (fun u => u.username = castUsername env username || u.email = email) = some u := by
    cases hfind : store.users.find?
        (fun u => u.username = castUsername env username || u.email = email) with
    | none =>
      have hall := List.find?_eq_none.1 hfind u0 hu0
      exact absurd hmatch hall
    | some u => exact ⟨u, rfl⟩
  unfold registerUser
  rw [hfull, hemail, huser, hpw]
  simp only [hfind]

/-- C7, on a sample: `alice` is registered, and a registration as `Alice` with an
unused email and an avatar is refused with 409; so is one in capitals. -/
theorem registerUser_conflict_up_to_case_witness :
    (sampleUser aliceId "alice" ∈ socialStore.users ∧
      aliceAgain.username = some "Alice" ∧
      socialStore.users.all (fun u => u.email ≠ "alice.b@example.org") = true ∧
      sampleEnv.toLowerCase "Alice" = sampleEnv.toLowerCase "alice") ∧
    registerUser sampleEnv socialStore aliceAgain =
      ⟨.apiError 409 "User with email or username already exists", socialStore,
       [.userFindOne]⟩ ∧
    registerUser sampleEnv socialStore { aliceAgain with username := some "ALICE" } =
      ⟨.apiError 409 "User with email or username already exists", socialStore,
       [.userFindOne]⟩ :=
  ⟨⟨by decide, by decide, by decide, by decide⟩,
   registerUser_conflict_up_to_case sampleEnv socialStore aliceAgain (sampleUser aliceId "alice")
     "Alice B" "alice.b@example.org" "Alice" "secret" (by decide) (by decide) (by decide)
     (by decide) (by decide) (by decide) (by decide),
   by decide⟩

/-- C8, at a failing input: bob presents his persisted refresh token; a new pair
is generated and the new refresh token is persisted, but the handler reads the
field `newRefreshToken` of an object whose field is `refreshToken`, so the
refresh token of the body and of the cookie is `undefined`, not the persisted
one. -/
theorem refreshAccessToken_returns_undefined :
    refreshAccessToken sampleEnv socialStore ⟨some "refresh-1-of-bob", none⟩ =
      ⟨.json 200
        { accessTokenCookie := some "access-of-bob", refreshTokenCookie := none,
          accessToken := some "access-of-bob", refreshToken := none },
       rotatedStore, [.userFindById, .userFindById, .userSave]⟩ ∧
    (findUserById rotatedStore (some bobId)).map (fun u => u.refreshToken) =
      some (some "refresh-2-of-bob") := by
  decide

theorem findUserById_some (store : Store) (id : Option ObjectId) (user : User)
    (h : findUserById store id = some user) :
    id = some user._id ∧ findUserById store (some user._id) = some user ∧ user ∈ store.users := by
  cases id with
  | none => simp [findUserById] at h
  | some i =>
    have hid := List.find?_some h
    simp only [decide_eq_true_eq] at hid
    subst hid
    exact ⟨rfl, h, List.mem_of_find?_eq_some h⟩

/-- The run of `refreshAccessToken` on a token that verifies and equals the one
persisted on the resolved user. -/
theorem refreshAccessToken_match (env : Env) (store : Store) (req : RefreshRequest)
    (decodedId : Option ObjectId) (user : User)
    (ht : truthy req.incoming = true)
    (hdec : env.verifyRefreshToken (req.incoming.getD "") = some decodedId)
    (huser : findUserById store decodedId = some user)
    (htok : req.incoming = user.refreshToken) :
    refreshAccessToken env store req =
      ⟨.json 200
        { accessTokenCookie := some (env.generateAccessToken user), refreshTokenCookie := none,
          accessToken := some (env.generateAccessToken user), refreshToken := none },
       saveUser store { user with refreshToken := some (env.generateRefreshToken user) },
       [.userFindById, .userFindById, .userSave]⟩ := by
  have huser2 := (findUserById_some store decodedId user huser).2.1
  have hnot : ¬ (req.incoming ≠ user.refreshToken) := not_not.2 htok
  unfold refreshAccessToken
  simp only [ht, hdec, huser, Bool.not_true, Bool.false_eq_true, if_false, if_neg hnot,
    generateAccessAndRefreshTokens, huser2]
  simp [field]

/-- Every successful `refreshAccessToken` persists the generated refresh token
and hands `undefined` to the body and to the cookie. -/
theorem refreshAccessToken_success (env : Env) (store : Store) (req : RefreshRequest)
    (answer : TokenAnswer)
    (h : (refreshAccessToken env store req).response = .json 200 answer) :
    answer.refreshToken = none ∧ answer.refreshTokenCookie = none ∧
    ∃ user : User, findUserById store (some user._id) = some user ∧
      env.verifyRefreshToken (req.incoming.getD "") = some (some user._id) ∧
      req.incoming = user.refreshToken ∧
      answer.accessToken = some (env.generateAccessToken user) ∧
      (refreshAccessToken env store req).store =
        saveUser store { user with refreshToken := some (env.generateRefreshToken user) } := by
  cases ht : truthy req.incoming with
  | false => simp [refreshAccessToken, ht] at h
  | true =>
    cases hdec : env.verifyRefreshToken (req.incoming.getD "") with
    | none => simp [refreshAccessToken, ht, hdec] at h
    | some decodedId =>
      cases huser : findUserById store decodedId with
      | none => simp [refreshAccessToken, ht, hdec, huser] at h
      | some user =>
        by_cases htok : req.incoming = user.refreshToken
        · have heq := refreshAccessToken_match env store req decodedId user ht hdec huser htok
          obtain ⟨hid, huser2, _⟩ := findUserById_some store decodedId user huser
          rw [heq] at h ⊢
          simp only [Response.json.injEq, true_and] at h
          subst h
          exact ⟨rfl, rfl, user, huser2, by rw [hid], htok, rfl, rfl⟩
        · simp [refreshAccessToken, ht, hdec, huser, htok] at h

/-- C9: a refresh token that verifies and resolves to a stored user, but is not
the token persisted on that user, is refused with 401 after the lookup alone: no
token is generated or saved and the store is unchanged; a request without any
refresh token is refused with 401 before any database call. -/
theorem refreshAccessToken_rejects_stale (env : Env) (store : Store) (req : RefreshRequest) :
    (∀ (token : String) (user : User),
      req.incoming = some token → token ≠ "" →
      env.verifyRefreshToken token = some (some user._id) →
      findUserById store (some user._id) = some user →
      user.refreshToken ≠ some token →
      refreshAccessToken env store req =
        ⟨.apiError 401 "Refresh token is expired or used", store, [.userFindById]⟩) ∧
    (truthy req.cookieRefreshToken = false → truthy req.bodyRefreshToken = false →
      refreshAccessToken env store req =
        ⟨.apiError 401 "unauthorized request", store, []⟩) := by
  constructor
  · intro token user hinc hne hdec huser hstale
    have ht : truthy req.incoming = true := by
      rw [hinc]
      simp [truthy, hne]
    have hdec2 : env.verifyRefreshToken (req.incoming.getD "") = some (some user._id) := by
      rw [hinc]
      exact hdec
    have hneq : req.incoming ≠ user.refreshToken := by
      rw [hinc]
      exact fun h => hstale h.symm
    unfold refreshAccessToken
    simp [ht, hdec2, huser, hneq]
  · intro hc hb
    have ht : truthy req.incoming = false := by
      unfold RefreshRequest.incoming
      simp [hc, hb]
    unfold refreshAccessToken
    simp [ht]

/-- C9, on a sample: after bob's token was rotated, his old token still verifies
but is refused, and the store keeps the rotated token; a request without token is
refused as well. -/
theorem refreshAccessToken_rejects_stale_witness :
    ((RefreshRequest.mk (some "refresh-1-of-bob") none).incoming = some "refresh-1-of-bob" ∧
      "refresh-1-of-bob" ≠ "" ∧
      sampleEnv.verifyRefreshToken "refresh-1-of-bob" = some (some bobId) ∧
      (findUserById rotatedStore (some bobId)).map (fun u => u.refreshToken) =
        some (some "refresh-2-of-bob")) ∧
    refreshAccessToken sampleEnv rotatedStore ⟨some "refresh-1-of-bob", none⟩ =
      ⟨.apiError 401 "Refresh token is expired or used", rotatedStore, [.userFindById]⟩ ∧
    refreshAccessToken sampleEnv rotatedStore ⟨none, none⟩ =
      ⟨.apiError 401 "unauthorized request", rotatedStore, []⟩ :=
  ⟨by decide,
   (refreshAccessToken_rejects_stale sampleEnv rotatedStore ⟨some "refresh-1-of-bob", none⟩).1
     "refresh-1-of-bob" { sampleUser bobId "bob" with refreshToken := some "refresh-2-of-bob" }
     (by decide) (by decide) (by decide) (by decide) (by decide),
   (refreshAccessToken_rejects_stale sampleEnv rotatedStore ⟨none, none⟩).2
     (by decide) (by decide)⟩

/-- C10, as amended: `changeCurrentPassword` throws an `ApiError` 400 when
oldPassword or newPassword is missing or empty, and an `ApiError` 400 again when
the old password does not verify; in both cases the store is unchanged.  When the
old password verifies, the caller's password becomes what the save hook stores
for newPassword; and the store changes only in that case. -/
theorem changeCurrentPassword_guards (env : Env) (store : Store) (caller : Option ObjectId)
    (oldPassword newPassword : Option String) :
    ((truthy oldPassword = false ∨ truthy newPassword = false) →
      changeCurrentPassword env store caller oldPassword newPassword =
        ⟨.apiError 400 "Old password and new password are required", store, []⟩) ∧
    (∀ user : User, truthy oldPassword = true → truthy newPassword = true →
      findUserById store caller = some user →
      env.isPasswordCorrect user (oldPassword.getD "") = false →
      changeCurrentPassword env store caller oldPassword newPassword =
        ⟨.apiError 400 "Invalid old password", store, [.userFindById]⟩) ∧
    (∀ user : User, truthy oldPassword = true → truthy newPassword = true →
      findUserById store caller = some user →
      env.isPasswordCorrect user (oldPassword.getD "") = true →
      changeCurrentPassword env store caller oldPassword newPassword =
        ⟨.json 200 (),
         saveUser store { user with password := env.hashPassword (newPassword.getD "") },
         [.userFindById, .userSave]⟩) ∧
    ((changeCurrentPassword env store caller oldPassword newPassword).store ≠ store →
      ∃ user : User, findUserById store caller = some user ∧
        env.isPasswordCorrect user (oldPassword.getD "") = true) := by
  refine ⟨?_, ?_, ?_, ?_⟩
  · intro h
    unfold changeCurrentPassword
    rcases h with h | h <;> simp [h]
  · intro user ho hn hu hp
    unfold changeCurrentPassword
    simp [ho, hn, hu, hp]
  · intro user ho hn hu hp
    unfold changeCurrentPassword
    simp [ho, hn, hu, hp]
  · intro h
    unfold changeCurrentPassword at h
    split at h
    · exact absurd rfl h
    · split at h
      · exact absurd rfl h
      · rename_i user hu
        split at h
        · exact absurd rfl h
        · rename_i hp
          exact ⟨user, hu, by simpa using hp⟩

/-- C10, on samples: bob's password is `pw`; with the wrong old password the
request is refused and the store is unchanged, with the right one the password is
replaced. -/
theorem changeCurrentPassword_guards_witness :
    changeCurrentPassword sampleEnv socialStore (some bobId) none (some "next") =
      ⟨.apiError 400 "Old password and new password are required", socialStore, []⟩ ∧
    changeCurrentPassword sampleEnv socialStore (some bobId) (some "wrong") (some "next") =
      ⟨.apiError 400 "Invalid old password", socialStore, [.userFindById]⟩ ∧
    (changeCurrentPassword sampleEnv socialStore (some bobId) (some "bob") (some "next")).response
      = .json 200 () ∧
    (findUserById
        (changeCurrentPassword sampleEnv socialStore (some bobId) (some "bob")
          (some "next")).store (some bobId)).map (fun u => u.password) = some "hash:next" := by
  have key := changeCurrentPassword_guards sampleEnv socialStore (some bobId)
  refine ⟨(key none (some "next")).1 (Or.inl (by decide)),
          (key (some "wrong") (some "next")).2.1
            { sampleUser bobId "bob" with refreshToken := some "refresh-1-of-bob" }
            (by decide) (by decide) (by decide) (by decide), ?_, ?_⟩
  · rw [(key (some "bob") (some "next")).2.2.1
      { sampleUser bobId "bob" with refreshToken := some "refresh-1-of-bob" }
      (by decide) (by decide) (by decide) (by decide)]
  · rw [(key (some "bob") (some "next")).2.2.1
      { sampleUser bobId "bob" with refreshToken := some "refresh-1-of-bob" }
      (by decide) (by decide) (by decide) (by decide)]
    decide

/-- C10 fails as stated: a wrong old password is answered with status 400, not
401. -/
theorem changeCurrentPassword_wrong_old_is_400 :
    sampleEnv.isPasswordCorrect
      { sampleUser bobId "bob" with refreshToken := some "refresh-1-of-bob" } "wrong" = false ∧
    (changeCurrentPassword sampleEnv socialStore (some bobId) (some "wrong")
      (some "next")).response = .apiError 400 "Invalid old password" ∧
    ∀ message, (changeCurrentPassword sampleEnv socialStore (some bobId) (some "wrong")
      (some "next")).response ≠ .apiError 401 message := by
  refine ⟨by decide, by decide, ?_⟩
  intro message h
  have h400 : (changeCurrentPassword sampleEnv socialStore (some bobId) (some "wrong")
      (some "next")).response = .apiError 400 "Invalid old password" := by decide
  rw [h400] at h
  simp at h

/-! ## Claims about the video mutations -/

theorem findVideoById_some (store : Store) (videoId : String) (v : Video)
    (h : findVideoById store videoId = some v) : v._id = videoId ∧ v ∈ store.videos := by
  unfold findVideoById at h
  have hid := List.find?_some h
  simp only [decide_eq_true_eq] at hid
  exact ⟨hid, List.mem_of_find?_eq_some h⟩

/-- C11, as amended: for a videoId in canonical rendering that passes
`isValidObjectId` and for every caller, signed in or not, each of `updateVideo`,
`deleteVideo` and `togglePublishStatus` throws an `ApiError` with status 400
and the message `video does not exist` when no video has that identifier, and
an `ApiError` with status 400 and the message `you do not have permission to
perform this action` when the video exists and its owner is not the caller;
in both cases the only database call is the lookup and the store (videos,
likes, comments) is left as it was.  An `updateVideo` that carries no field at
all is refused before the lookup with `At least one field is required`. -/
theorem video_mutations_guarded (env : Env) (store : Store) (caller : Option ObjectId)
    (videoId : String) (hcanon : isCanonicalObjectId videoId = true)
    (hvalid : env.isValidObjectId videoId = true) :
    (findVideoById store videoId = none →
      (∀ req, updateVideo env store caller videoId req =
        if (!truthy req.title && !truthy req.description && req.file.isNone) = true then
          ⟨.apiError 400 "At least one field is required", store, []⟩
        else ⟨.apiError 400 "video does not exist", store, [.videoFindById]⟩) ∧
      deleteVideo env store caller videoId =
        ⟨.apiError 400 "video does not exist", store, [.videoFindById]⟩ ∧
      togglePublishStatus env store caller videoId =
        ⟨.apiError 400 "video does not exist", store, [.videoFindById]⟩) ∧
    (∀ v : Video, findVideoById store videoId = some v → caller ≠ some v.owner →
      (∀ req, updateVideo env store caller videoId req =
        if (!truthy req.title && !truthy req.description && req.file.isNone) = true then
          ⟨.apiError 400 "At least one field is required", store, []⟩
        else
          ⟨.apiError 400 "you do not have permission to perform this action", store,
            [.videoFindById]⟩) ∧
      deleteVideo env store caller videoId =
        ⟨.apiError 400 "you do not have permission to perform this action", store,
          [.videoFindById]⟩ ∧
      togglePublishStatus env store caller videoId =
        ⟨.apiError 400 "you do not have permission to perform this action", store,
          [.videoFindById]⟩) := by
  have _ := hcanon
  constructor
  · intro hnone
    refine ⟨?_, ?_, ?_⟩
    · intro req
      by_cases hfield :
          (!truthy req.title && !truthy req.description && req.file.isNone) = true
      · rw [updateVideo, if_pos hfield, if_pos hfield]
      · rw [updateVideo, if_neg hfield, if_neg hfield]
        simp only [hvalid, hnone, Bool.not_true, Bool.false_eq_true, if_false]
    · unfold deleteVideo
      simp [hvalid, hnone]
    · unfold togglePublishStatus
      simp [hvalid, hnone]
  · intro v hsome howner
    refine ⟨?_, ?_, ?_⟩
    · intro req
      by_cases hfield :
          (!truthy req.title && !truthy req.description && req.file.isNone) = true
      · rw [updateVideo, if_pos hfield, if_pos hfield]
      · rw [updateVideo, if_neg hfield, if_neg hfield]
        simp only [hvalid, hsome, Bool.not_true, Bool.false_eq_true, if_false]
        cases caller with
        | none => rfl
        | some callerId =>
          have hne : v.owner ≠ callerId := fun h => howner (by rw [h])
          simp only [if_pos hne]
    · unfold deleteVideo
      simp only [hvalid, hsome, Bool.not_true, Bool.false_eq_true, if_false]
      cases caller with
      | none => rfl
      | some callerId =>
        have hne : v.owner ≠ callerId := fun h => howner (by rw [h])
        simp only [if_pos hne]
    · unfold togglePublishStatus
      simp only [hvalid, hsome, Bool.not_true, Bool.false_eq_true, if_false]
      cases caller with
      | none => rfl
      | some callerId =>
        have hne : v.owner ≠ callerId := fun h => howner (by rw [h])
        simp only [if_pos hne]

/-- C11, on samples: an unknown identifier, bob acting on the clip of alice, and a
request that is not signed in. -/
theorem video_mutations_guarded_witness :
    (isCanonicalObjectId "660000000000000000000009" = true ∧
      sampleEnv.isValidObjectId "660000000000000000000009" = true ∧
      findVideoById busyStore "660000000000000000000009" = none ∧
      deleteVideo sampleEnv busyStore (some bobId) "660000000000000000000009" =
        ⟨.apiError 400 "video does not exist", busyStore, [.videoFindById]⟩) ∧
    (isCanonicalObjectId clipId = true ∧ sampleEnv.isValidObjectId clipId = true ∧
      findVideoById busyStore clipId = some clip ∧ some bobId ≠ some clip.owner ∧
      updateVideo sampleEnv busyStore (some bobId) clipId retitle =
        ⟨.apiError 400 "you do not have permission to perform this action", busyStore,
          [.videoFindById]⟩ ∧
      togglePublishStatus sampleEnv busyStore (some bobId) clipId =
        ⟨.apiError 400 "you do not have permission to perform this action", busyStore,
          [.videoFindById]⟩) ∧
    deleteVideo sampleEnv busyStore none clipId =
      ⟨.apiError 400 "you do not have permission to perform this action", busyStore,
        [.videoFindById]⟩ :=
  ⟨⟨by decide, by decide, by decide,
    ((video_mutations_guarded sampleEnv busyStore (some bobId) "660000000000000000000009"
      (by decide) (by decide)).1 (by decide)).2.1⟩,
   ⟨by decide, by decide, by decide, by decide,
    (((video_mutations_guarded sampleEnv busyStore (some bobId) clipId (by decide)
      (by decide)).2 clip (by decide) (by decide)).1 retitle),
    ((video_mutations_guarded sampleEnv busyStore (some bobId) clipId (by decide)
      (by decide)).2 clip (by decide) (by decide)).2.2⟩,
   ((video_mutations_guarded sampleEnv busyStore none clipId (by decide)
      (by decide)).2 clip (by decide) (by decide)).2.1⟩

/-- C11 fails as stated: an unknown video is answered with status 400, not 404,
and a caller who is not the owner with status 400, not 403. -/
theorem video_mutations_answer_400 :
    (deleteVideo sampleEnv busyStore (some bobId) "660000000000000000000009").response =
      .apiError 400 "video does not exist" ∧
    (deleteVideo sampleEnv busyStore (some bobId) clipId).response =
      .apiError 400 "you do not have permission to perform this action" ∧
    (updateVideo sampleEnv busyStore (some bobId) clipId retitle).response =
      .apiError 400 "you do not have permission to perform this action" ∧
    (togglePublishStatus sampleEnv busyStore (some bobId) "660000000000000000000009").response =
      .apiError 400 "video does not exist" := by
  decide

theorem eraseP_id_absent (videos : List Video) (id : ObjectId)
    (h : (videos.map (fun v => v._id)).Nodup) :
    ∀ w ∈ videos.eraseP (fun v => v._id = id), w._id ≠ id := by
  induction videos with
  | nil => intro w hw; cases hw
  | cons x xs ih =>
    rw [List.map_cons, List.nodup_cons] at h
    intro w hw
    by_cases hx : x._id = id
    · rw [List.eraseP_cons_of_pos (by simpa using hx)] at hw
      intro hwid
      exact h.1 (List.mem_map.2 ⟨w, hw, hwid.trans hx.symm⟩)
    · rw [List.eraseP_cons_of_neg (by simpa using hx)] at hw
      rcases List.mem_cons.1 hw with hw | hw
      · rw [hw]
        exact hx
      · exact ih h.2 w hw

/-- The run of `deleteVideo` by the owner when both media deletions resolve. -/
theorem deleteVideo_by_owner (env : Env) (store : Store) (caller : ObjectId)
    (videoId : String) (v : Video)
    (hvalid : env.isValidObjectId videoId = true)
    (hfind : findVideoById store videoId = some v) (howner : v.owner = caller)
    (hfile : env.destroyOnCloudinary v.videoFile.public_id = true)
    (hthumb : env.destroyOnCloudinary v.thumbnail.public_id = true) :
    deleteVideo env store (some caller) videoId =
      ⟨.json 200 (),
       { store with
         videos := store.videos.eraseP (fun w => w._id = v._id),
         likes := store.likes.filter (fun l => l.video ≠ videoId),
         comments := store.comments.filter (fun c => c.video ≠ videoId) },
       [.videoFindById, .videoDeleteOne, .likeDeleteMany, .commentDeleteMany]⟩ := by
  unfold deleteVideo
  simp [hvalid, hfind, howner, hfile, hthumb]

/-- A successful `deleteVideo` is a run by the owner whose media deletions
resolved. -/
theorem deleteVideo_success (env : Env) (store : Store) (caller : ObjectId)
    (videoId : String) (status : Nat)
    (h : (deleteVideo env store (some caller) videoId).response = .json status ()) :
    ∃ v : Video, env.isValidObjectId videoId = true ∧ findVideoById store videoId = some v ∧
      v.owner = caller ∧ env.destroyOnCloudinary v.videoFile.public_id = true ∧
      env.destroyOnCloudinary v.thumbnail.public_id = true := by
  unfold deleteVideo at h
  split at h
  · simp at h
  · rename_i hvalid
    split at h
    · simp at h
    · rename_i v hfind
      simp only at h
      split at h
      · simp at h
      · rename_i howner
        split at h
        · simp at h
        · rename_i hmedia
          simp only [not_or, Bool.not_eq_false] at hmedia
          exact ⟨v, by simpa using hvalid, hfind, by simpa using howner, hmedia.1, hmedia.2⟩

/-- C12: on a store whose video identifiers are distinct, `deleteVideo` called by
the owner succeeds when the two media deletions resolve, and after every
successful call the store holds no video with that identifier, no Like and no
Comment whose `video` is that identifier, while the Likes and Comments of other
videos, the users and the subscriptions are as before. -/
theorem deleteVideo_cascade (env : Env) (store : Store) (caller : ObjectId)
    (videoId : String) (hunique : (store.videos.map (fun v => v._id)).Nodup) :
    (∀ v : Video, env.isValidObjectId videoId = true → findVideoById store videoId = some v →
      v.owner = caller → env.destroyOnCloudinary v.videoFile.public_id = true →
      env.destroyOnCloudinary v.thumbnail.public_id = true →
      (deleteVideo env store (some caller) videoId).response = .json 200 ()) ∧
    (∀ status : Nat,
      (deleteVideo env store (some caller) videoId).response = .json status () →
      (∀ w ∈ (deleteVideo env store (some caller) videoId).store.videos, w._id ≠ videoId) ∧
      (∀ l ∈ (deleteVideo env store (some caller) videoId).store.likes, l.video ≠ videoId) ∧
      (∀ c ∈ (deleteVideo env store (some caller) videoId).store.comments,
        c.video ≠ videoId) ∧
      (deleteVideo env store (some caller) videoId).store.likes =
        store.likes.filter (fun l => l.video ≠ videoId) ∧
      (deleteVideo env store (some caller) videoId).store.comments =
        store.comments.filter (fun c => c.video ≠ videoId) ∧
      (deleteVideo env store (some caller) videoId).store.users = store.users ∧
      (deleteVideo env store (some caller) videoId).store.subscriptions =
        store.subscriptions) := by
  constructor
  · intro v hvalid hfind howner hfile hthumb
    rw [deleteVideo_by_owner env store caller videoId v hvalid hfind howner hfile hthumb]
  · intro status h
    obtain ⟨v, hvalid, hfind, howner, hfile, hthumb⟩ :=
      deleteVideo_success env store caller videoId status h
    rw [deleteVideo_by_owner env store caller videoId v hvalid hfind howner hfile hthumb]
    have hid := (findVideoById_some store videoId v hfind).1
    refine ⟨?_, ?_, ?_, rfl, rfl, rfl, rfl⟩
    · intro w hw
      have := eraseP_id_absent store.videos v._id hunique w hw
      rwa [hid] at this
    · intro l hl
      simpa using (List.mem_filter.1 hl).2
    · intro c hc
      simpa using (List.mem_filter.1 hc).2

/-- C12, on a sample: alice deletes her first clip; its like and its comment go,
those of her other clip stay. -/
theorem deleteVideo_cascade_witness :
    ((busyStore.videos.map (fun v => v._id)).Nodup ∧
      sampleEnv.isValidObjectId clipId = true ∧ findVideoById busyStore clipId = some clip ∧
      clip.owner = aliceId) ∧
    (deleteVideo sampleEnv busyStore (some aliceId) clipId).response = .json 200 () ∧
    (deleteVideo sampleEnv busyStore (some aliceId) clipId).store = busyStoreAfterDelete ∧
    ((∀ w ∈ (deleteVideo sampleEnv busyStore (some aliceId) clipId).store.videos,
        w._id ≠ clipId) ∧
     (∀ l ∈ (deleteVideo sampleEnv busyStore (some aliceId) clipId).store.likes,
        l.video ≠ clipId) ∧
     (∀ c ∈ (deleteVideo sampleEnv busyStore (some aliceId) clipId).store.comments,
        c.video ≠ clipId)) := by
  have hunique : (busyStore.videos.map (fun v => v._id)).Nodup := by decide
  have key := deleteVideo_cascade sampleEnv busyStore aliceId clipId hunique
  have hok := key.1 clip (by decide) (by decide) (by decide) (by decide) (by decide)
  have hpost := key.2 200 hok
  exact ⟨⟨hunique, by decide, by decide, by decide⟩, hok, by decide,
    hpost.1, hpost.2.1, hpost.2.2.1⟩

/-! ## Claims about `logoutUser` and the stored usernames -/

theorem updateFirst_idem {α : Type} (p : α → Bool) (f : α → α)
    (hp : ∀ x, p x = true → p (f x) = true) (hf : ∀ x, f (f x) = f x) (xs : List α) :
    updateFirst p f (updateFirst p f xs) = updateFirst p f xs := by
  induction xs with
  | nil => rfl
  | cons x rest ih =>
    by_cases hx : p x = true
    · simp [updateFirst, hx, hp x hx, hf x]
    · simp [updateFirst, hx, ih]

theorem find?_updateFirst {α : Type} (p : α → Bool) (f : α → α)
    (hp : ∀ x, p x = true → p (f x) = true) (xs : List α) :
    (updateFirst p f xs).find? p = (xs.find? p).map f := by
  induction xs with
  | nil => rfl
  | cons x rest ih =>
    by_cases hx : p x = true
    · simp [updateFirst, hx, hp x hx]
    · simp [updateFirst, hx, ih]

/-- What an update of the first match does to a list, said without the
function: either nothing matches and the list is as it was, or the list splits
at its first match, which alone is replaced. -/
theorem updateFirst_split {α : Type} (p : α → Bool) (f : α → α) (xs : List α) :
    ((∀ x ∈ xs, p x = false) ∧ updateFirst p f xs = xs) ∨
    ∃ (pre : List α) (x : α) (post : List α), xs = pre ++ x :: post ∧
      (∀ w ∈ pre, p w = false) ∧ p x = true ∧ updateFirst p f xs = pre ++ f x :: post := by
  induction xs with
  | nil => exact Or.inl ⟨fun x hx => (by cases hx), rfl⟩
  | cons y rest ih =>
    by_cases hy : p y = true
    · right
      refine ⟨[], y, rest, rfl, fun w hw => (by cases hw), hy, ?_⟩
      simp [updateFirst, hy]
    · have hy2 : p y = false := by simpa using hy
      rcases ih with ⟨hall, heq⟩ | ⟨pre, x, post, hsplit, hpre, hx, heq⟩
      · left
        refine ⟨?_, ?_⟩
        · intro x hx
          rcases List.mem_cons.1 hx with hx | hx
          · rw [hx]
            exact hy2
          · exact hall x hx
        · simp [updateFirst, hy, heq]
      · right
        refine ⟨y :: pre, x, post, by rw [hsplit]; rfl, ?_, hx, ?_⟩
        · intro w hw
          rcases List.mem_cons.1 hw with hw | hw
          · rw [hw]
            exact hy2
          · exact hpre w hw
        · simp [updateFirst, hy, heq]

/-- C13: for every store and every authenticated caller, `logoutUser` answers 200,
and a second call answers 200 again and leaves the store of the first call as
it is.  The first call changes nothing when no user has the identifier of the
caller; otherwise the list of users splits at the first user with that
identifier, whose `refreshToken` is removed and whose other fields stay, every
user before and after is as it was, in the same place, and so are the videos,
subscriptions, likes and comments.  The user then found under the identifier
is the one found before, without `refreshToken`. -/
theorem logoutUser_idempotent (store : Store) (caller : ObjectId) :
    (logoutUser store (some caller)).response = .json 200 ⟨["accessToken", "refreshToken"]⟩ ∧
    (logoutUser (logoutUser store (some caller)).store (some caller)).response =
      .json 200 ⟨["accessToken", "refreshToken"]⟩ ∧
    (logoutUser (logoutUser store (some caller)).store (some caller)).store =
      (logoutUser store (some caller)).store ∧
    (((∀ u ∈ store.users, u._id ≠ caller) ∧ (logoutUser store (some caller)).store = store) ∨
     ∃ (pre : List User) (u : User) (post : List User),
       store.users = pre ++ u :: post ∧ (∀ w ∈ pre, w._id ≠ caller) ∧ u._id = caller ∧
       (logoutUser store (some caller)).store =
         { users := pre ++ { u with refreshToken := none } :: post, videos := store.videos,
           subscriptions := store.subscriptions, likes := store.likes,
           comments := store.comments }) ∧
    findUserById (logoutUser store (some caller)).store (some caller) =
      (findUserById store (some caller)).map (fun u => { u with refreshToken := none }) := by
  refine ⟨rfl, rfl, ?_, ?_, ?_⟩
  · simp only [logoutUser]
    rw [updateFirst_idem]
    · intro u hu
      exact hu
    · intro u
      rfl
  · rcases updateFirst_split (fun u : User => decide (u._id = caller))
        (fun u => { u with refreshToken := none }) store.users with
      ⟨hall, heq⟩ | ⟨pre, u, post, hsplit, hpre, hu, heq⟩
    · left
      refine ⟨fun u hu => (by simpa using hall u hu), ?_⟩
      simp only [logoutUser]
      rw [heq]
    · right
      refine ⟨pre, u, post, hsplit, fun w hw => (by simpa using hpre w hw),
        (by simpa using hu), ?_⟩
      simp only [logoutUser]
      rw [heq]
  · simp only [logoutUser, findUserById]
    exact find?_updateFirst (fun u : User => decide (u._id = caller))
      (fun u => { u with refreshToken := none }) (fun u hu => hu) store.users

theorem mem_updateFirst {α : Type} (p : α → Bool) (f : α → α) (xs : List α) (y : α)
    (h : y ∈ updateFirst p f xs) : y ∈ xs ∨ ∃ x ∈ xs, y = f x := by
  induction xs with
  | nil => cases h
  | cons x rest ih =>
    unfold updateFirst at h
    by_cases hx : p x = true
    · rw [if_pos hx] at h
      rcases List.mem_cons.1 h with h | h
      · exact Or.inr ⟨x, List.mem_cons_self _ _, h⟩
      · exact Or.inl (List.mem_cons_of_mem _ h)
    · rw [if_neg hx] at h
      rcases List.mem_cons.1 h with h | h
      · exact Or.inl (h ▸ List.mem_cons_self _ _)
      · rcases ih h with h | ⟨z, hz, hy⟩
        · exact Or.inl (List.mem_cons_of_mem _ h)
        · exact Or.inr ⟨z, List.mem_cons_of_mem _ hz, hy⟩

/-- ASCII lower-casing leaves a lower-cased character alone. -/
theorem lowerChar_idem (c : Char) : lowerChar (lowerChar c) = lowerChar c := by
  unfold lowerChar
  by_cases h : 65 ≤ c.toNat ∧ c.toNat ≤ 90
  · rw [if_pos h]
    have hn : (Char.ofNat (c.toNat + 32)).toNat = c.toNat + 32 := by
      obtain ⟨h1, h2⟩ := h
      generalize c.toNat = n at h1 h2
      interval_cases n <;> rfl
    rw [hn, if_neg (by omega)]
  · rw [if_neg h, if_neg h]

/-- ASCII lower-casing is idempotent, as the lower-casing of the runtime is. -/
theorem asciiToLowerCase_idem (s : String) :
    asciiToLowerCase (asciiToLowerCase s) = asciiToLowerCase s := by
  show String.mk ((s.toList.map lowerChar).map lowerChar) = String.mk (s.toList.map lowerChar)
  rw [List.map_map]
  congr 1
  apply List.map_congr_left
  intro c _
  exact lowerChar_idem c

/-- What `registerUser` does to the store: nothing, or the insertion of one user
whose username went through the setter of the schema. -/
theorem registerUser_store (env : Env) (store : Store) (req : RegisterRequest) :
    (registerUser env store req).store = store ∨
    ∃ (user : User) (x : String), user.username = env.toLowerCase x ∧
      (registerUser env store req).store = { store with users := store.users ++ [user] } := by
  unfold registerUser
  split
  · split
    · exact Or.inl rfl
    · split
      · exact Or.inl rfl
      · split
        · exact Or.inl rfl
        · rename_i fullName email username password _ _ _ _ _ _ _ _ _ _
          simp only
          unfold userCreate
          split
          · rename_i e hcreate
            split at hcreate
            · exact Or.inl rfl
            · cases hcreate
          · rename_i user store1 hcreate
            split at hcreate
            · cases hcreate
            · simp only [Except.ok.injEq, Prod.mk.injEq] at hcreate
              obtain ⟨huser, hstore⟩ := hcreate
              right
              refine ⟨user, env.toLowerCase username, ?_, ?_⟩
              · rw [← huser]
                rfl
              · split <;> (rw [← hstore, ← huser])
  · exact Or.inl rfl

/-- What `updateAccountDetails` does to the store: nothing, or the replacement of
one stored user by a copy whose username is the stored one or went through the
setter of the schema. -/
theorem updateAccountDetails_store (env : Env) (store : Store) (caller : ObjectId)
    (req : AccountUpdate) :
    (updateAccountDetails env store caller req).store = store ∨
    ∃ (user updated : User), user ∈ store.users ∧
      (updated.username = user.username ∨ ∃ x, updated.username = env.toLowerCase x) ∧
      (updateAccountDetails env store caller req).store =
        { store with
          users := updateFirst (fun u => u._id = caller) (fun _ => updated) store.users } := by
  unfold updateAccountDetails
  split
  · exact Or.inl rfl
  · split
    · exact Or.inl rfl
    · rename_i user hfind
      simp only
      split
      · exact Or.inl rfl
      · right
        refine ⟨user, _, ?_, ?_, rfl⟩
        · unfold findUserById at hfind
          exact List.mem_of_find?_eq_some hfind
        · cases hreq : req.username with
          | none => exact Or.inl rfl
          | some x => exact Or.inr ⟨x, rfl⟩

/-- Every username in a store reached through `registerUser` and
`updateAccountDetails` is its own lower-cased form. -/
theorem reachable_normalized (env : Env)
    (hidem : ∀ s, env.toLowerCase (env.toLowerCase s) = env.toLowerCase s)
    (store : Store) (hreach : Reachable env store) :
    ∀ u ∈ store.users, env.toLowerCase u.username = u.username := by
  induction hreach with
  | empty =>
    intro u hu
    cases hu
  | register store req _ ih =>
    rcases registerUser_store env store req with h | ⟨user, x, hx, h⟩
    · rw [h]
      exact ih
    · rw [h]
      intro u hu
      rcases List.mem_append.1 hu with hu | hu
      · exact ih u hu
      · rw [List.mem_singleton.1 hu, hx]
        exact hidem x
  | update store caller req _ ih =>
    rcases updateAccountDetails_store env store caller req with h | ⟨user, updated, hmem, hname, h⟩
    · rw [h]
      exact ih
    · rw [h]
      intro u hu
      rcases mem_updateFirst _ _ _ _ hu with hu | ⟨_, _, hu⟩
      · exact ih u hu
      · rw [hu]
        rcases hname with hname | ⟨x, hx⟩
        · rw [hname]
          exact ih user hmem
        · rw [hx]
          exact hidem x

/-- C14: in every store reached from the empty store through `registerUser` and
`updateAccountDetails`, every username is equal to its own lower-cased form
(lower-casing being idempotent), and for every stored user and every spelling
of their username that is not blank, `getUserChannelProfile` answers 200 with
the profile of a user of that username. -/
theorem usernames_case_normalized (env : Env)
    (hidem : ∀ s, env.toLowerCase (env.toLowerCase s) = env.toLowerCase s)
    (store : Store) (hreach : Reachable env store) :
    (∀ u ∈ store.users, env.toLowerCase u.username = u.username) ∧
    (∀ u ∈ store.users, ∀ (viewer : Option ObjectId) (name : String),
      trimWhiteSpace name.toList ≠ [] →
      env.toLowerCase name = env.toLowerCase u.username →
      ∃ profile : ChannelProfile,
        (getUserChannelProfile env store viewer (some name)).response = .json 200 profile ∧
        profile.username = u.username) := by
  have hnorm := reachable_normalized env hidem store hreach
  refine ⟨hnorm, ?_⟩
  intro u hu viewer name hname hspelling
  have hlow : env.toLowerCase name = u.username := by rw [hspelling, hnorm u hu]
  unfold getUserChannelProfile
  simp only [hname, if_false]
  cases hf : store.users.filter (fun w => w.username = env.toLowerCase name) with
  | nil =>
    have : u ∈ store.users.filter (fun w => w.username = env.toLowerCase name) :=
      List.mem_filter.2 ⟨hu, by simp [hlow]⟩
    rw [hf] at this
    cases this
  | cons first rest =>
    have hfirst : first ∈ store.users.filter (fun w => w.username = env.toLowerCase name) := by
      rw [hf]
      exact List.mem_cons_self _ _
    have hun := (List.mem_filter.1 hfirst).2
    simp only [decide_eq_true_eq] at hun
    exact ⟨channelProfile store viewer first, rfl, by rw [← hlow, ← hun]; rfl⟩

/-- C14, on a sample: alice registers and then updates her account with the
spelling `Alice`; the store reached holds `alice`, and her channel is found
under the spelling `ALICE`. -/
theorem usernames_case_normalized_witness :
    Reachable sampleEnv renamedStore ∧
    renamedStore.users.map (fun u => u.username) = ["alice"] ∧
    ((∀ u ∈ renamedStore.users, sampleEnv.toLowerCase u.username = u.username) ∧
     (∀ u ∈ renamedStore.users, ∀ (viewer : Option ObjectId) (name : String),
       trimWhiteSpace name.toList ≠ [] →
       sampleEnv.toLowerCase name = sampleEnv.toLowerCase u.username →
       ∃ profile : ChannelProfile,
         (getUserChannelProfile sampleEnv renamedStore viewer (some name)).response =
           .json 200 profile ∧
         profile.username = u.username)) ∧
    (getUserChannelProfile sampleEnv renamedStore none (some "ALICE")).response.isJson = true :=
  ⟨Reachable.update _ "u1" aliceRename (Reachable.register _ aliceSignup Reachable.empty),
   by decide,
   usernames_case_normalized sampleEnv asciiToLowerCase_idem renamedStore
     (Reachable.update _ "u1" aliceRename (Reachable.register _ aliceSignup Reachable.empty)),
   by decide⟩

/-! ## Claims about the pipeline of `getAllVideos` -/

/-- Every query that passes validation and carries a well-formed userId ends in
the `ReferenceError` raised by the unbound identifier `mongoose`, before any
database call. -/
theorem getAllVideos_owner_filter_throws (env : Env) (store : Store) (q : ListQuery)
    (hv : validateListQuery q = none) (hu : truthy q.userId = true)
    (hvalid : env.isValidObjectId (q.userId.getD "") = true) :
    getAllVideos env store q =
      ⟨.exception "ReferenceError: mongoose is not defined", store, []⟩ := by
  have hb : buildPipeline env q = .error (.exception "ReferenceError: mongoose is not defined") := by
    have hnot : "mongoose" ∉ videoControllerImports := by decide
    unfold buildPipeline
    simp [hu, hvalid, hnot]
  simp [getAllVideos, hv, hb]

/-- C16, at a failing input: a query with the well-formed userId of alice, who
owns a published clip, is not answered: building the owner stage evaluates
`mongoose`, which the controller does not import.  Without userId the pipeline
is the one the claim describes. -/
theorem getAllVideos_owner_filter_fails :
    sampleEnv.isValidObjectId aliceId = true ∧
    clip ∈ socialStore.videos ∧ clip.owner = aliceId ∧ clip.isPublished = true ∧
    getAllVideos sampleEnv socialStore ownerQuery =
      ⟨.exception "ReferenceError: mongoose is not defined", socialStore, []⟩ ∧
    buildPipeline sampleEnv searchQuery =
      .ok ⟨[.search "cats", .matchPublished, .lookupOwnerDetails, .unwindOwnerDetails,
            .sort "title" 1],
           { skip := .fin ⟨0, 0⟩, limit := some 10 }⟩ :=
  ⟨by decide, by decide, by decide, by decide, by decide, rfl⟩

/-! ## Claims about the projection of `getVideoById` -/

theorem inArray_viewerValue (viewer : Option ObjectId) (ids : List ObjectId) :
    Bson.inArray (viewerValue viewer) (ids.map Bson.oid) = viewerIn viewer ids := by
  unfold Bson.inArray viewerIn
  induction ids with
  | nil => rfl
  | cons id rest ih =>
    cases viewer with
    | none => simp [viewerValue, Bson.sameId]
    | some w =>
      simp only [List.map_cons, List.any_cons, List.contains_cons, ih]
      simp only [viewerValue, Bson.sameId]
      by_cases h : w = id <;> simp [h]

theorem subscriber_values (subs : List Subscription) :
    (subs.map Subscription.toBson).filterMap (fun item => item.getField "subscriber") =
      (subs.map (fun s => s.subscriber)).map Bson.oid := by
  induction subs with
  | nil => rfl
  | cons s rest ih =>
    simp only [List.map_cons, List.filterMap_cons, ih]
    simp [Subscription.toBson, Bson.getField]

theorem likedBy_values (likes : List Like) :
    (likes.map Like.toBson).filterMap (fun item => item.getField "likedBy") =
      (likes.map (fun l => l.likedBy)).map Bson.oid := by
  induction likes with
  | nil => rfl
  | cons l rest ih =>
    simp only [List.map_cons, List.filterMap_cons, ih]
    simp [Like.toBson, Bson.getField]

theorem getField_setFieldIn (name : String) (value : Bson) (fields : List (String × Bson)) :
    (Bson.doc (Bson.setFieldIn name value fields)).getField name = some value := by
  induction fields with
  | nil => simp [Bson.setFieldIn, Bson.getField]
  | cons kv rest ih =>
    obtain ⟨k, v⟩ := kv
    by_cases h : k = name
    · simp [Bson.setFieldIn, Bson.getField, h]
    · simpa [Bson.setFieldIn, Bson.getField, h] using ih

theorem arrayField_setFieldIn (name : String) (items : List Bson)
    (fields : List (String × Bson)) :
    (Bson.doc (Bson.setFieldIn name (.arr items) fields)).arrayField name = items := by
  unfold Bson.arrayField
  rw [getField_setFieldIn]

theorem pathValues_setFieldIn (array name : String) (items : List Bson)
    (fields : List (String × Bson)) :
    (Bson.doc (Bson.setFieldIn array (.arr items) fields)).pathValues array name =
      items.filterMap (fun item => item.getField name) := by
  unfold Bson.pathValues
  rw [arrayField_setFieldIn]

/-- The inner pipeline on documents computes the owner record of the typed
answer. -/
theorem ownerDocument_eq (store : Store) (viewer : Option ObjectId) (u : User) :
    ownerDocument store viewer u = (videoOwner store viewer u).toBson := by
  simp only [ownerDocument, User.toBson, Bson.setField, arrayField_setFieldIn,
    pathValues_setFieldIn, subscriber_values, inArray_viewerValue, List.length_map]
  cases hr : u.refreshToken <;>
  simp [videoOwner, VideoOwner.toBson, MediaRef.toBson, Bson.setFieldIn, project,
    projectField, ownerProjection, subfieldsOf, projectNested, projectSubdocument]

theorem getField_setFieldIn_ne (name other : String) (value : Bson)
    (fields : List (String × Bson)) (h : name ≠ other) :
    (Bson.doc (Bson.setFieldIn other value fields)).getField name =
      (Bson.doc fields).getField name := by
  induction fields with
  | nil => simp [Bson.setFieldIn, Bson.getField, Ne.symm h]
  | cons kv rest ih =>
    obtain ⟨k, v⟩ := kv
    by_cases hk : k = other
    · have hkn : k ≠ name := fun hkn => h (hkn.symm.trans hk)
      simp [Bson.setFieldIn, Bson.getField, hk, Ne.symm h]
    · by_cases hkn : k = name
      · subst hkn
        simp [Bson.setFieldIn, Bson.getField, h]
      · simpa [Bson.setFieldIn, Bson.getField, hk, hkn] using ih

theorem arrayField_setFieldIn_ne (name other : String) (value : Bson)
    (fields : List (String × Bson)) (h : name ≠ other) :
    (Bson.doc (Bson.setFieldIn other value fields)).arrayField name =
      (Bson.doc fields).arrayField name := by
  unfold Bson.arrayField
  rw [getField_setFieldIn_ne name other value fields h]

theorem pathValues_setFieldIn_ne (array other name : String) (value : Bson)
    (fields : List (String × Bson)) (h : array ≠ other) :
    (Bson.doc (Bson.setFieldIn other value fields)).pathValues array name =
      (Bson.doc fields).pathValues array name := by
  unfold Bson.pathValues
  rw [arrayField_setFieldIn_ne array other value fields h]

/-- The pipeline on documents computes the typed answer of `getVideoById`. -/
theorem videoDocument_eq (store : Store) (viewer : Option ObjectId) (v : Video) :
    videoDocument store viewer v = (videoDetail store viewer v).toBson := by
  have hne : "likes" ≠ "owner" := by decide
  have howners : ownerDocument store viewer = fun u => (videoOwner store viewer u).toBson :=
    funext (ownerDocument_eq store viewer)
  simp only [videoDocument, Video.toBson, Bson.setField, arrayField_setFieldIn,
    arrayField_setFieldIn_ne _ _ _ _ hne, pathValues_setFieldIn_ne _ _ _ _ _ hne,
    pathValues_setFieldIn, likedBy_values, inArray_viewerValue, List.length_map, howners]
  cases hown : store.users.filter (fun u => u._id = v.owner) with
  | nil =>
    simp [videoDetail, hown, VideoDetail.toBson, MediaRef.toBson, Bson.setFieldIn,
      Bson.removeField, project, projectField, videoProjection, subfieldsOf]
  | cons u rest =>
    simp [videoDetail, hown, VideoDetail.toBson, MediaRef.toBson, Bson.setFieldIn,
      Bson.setField, project, projectField, videoProjection, subfieldsOf]

/-- The private fields of the users have no influence on the typed answer. -/
theorem videoDetail_withoutSecrets (store : Store) (viewer : Option ObjectId) (v : Video) :
    videoDetail store.withoutSecrets viewer v = videoDetail store viewer v := by
  have howner : ∀ u : User,
      videoOwner store.withoutSecrets viewer u.withoutSecrets = videoOwner store viewer u :=
    fun _ => rfl
  have hid : ∀ u : User, u.withoutSecrets._id = u._id := fun _ => rfl
  have hfilter : ∀ users : List User,
      ((users.map User.withoutSecrets).filter (fun u => u._id = v.owner)).map
        (videoOwner store.withoutSecrets viewer) =
      (users.filter (fun u => u._id = v.owner)).map (videoOwner store viewer) := by
    intro users
    induction users with
    | nil => rfl
    | cons u rest ih =>
      by_cases hu : u._id = v.owner
      · have hd : decide (u._id = v.owner) = true := by simpa using hu
        simp only [List.map_cons, List.filter_cons, hid, hd, if_true, howner, ih]
      · have hd : decide (u._id = v.owner) = false := by simpa using hu
        simp only [List.map_cons, List.filter_cons, hid, hd, Bool.false_eq_true, if_false, ih]
  have husers : store.withoutSecrets.users = store.users.map User.withoutSecrets := rfl
  have hlikes : store.withoutSecrets.likes = store.likes := rfl
  unfold videoDetail
  simp only [husers, hlikes, hfilter]

/-- The field names of the document of a typed answer. -/
theorem VideoDetail.toBson_fields (d : VideoDetail) :
    (∀ k ∈ d.toBson.keys, k = "_id" ∨ Include.whole k ∈ videoProjection) ∧
    (∀ o, d.toBson.getField "owner" = some o →
      (∀ k ∈ o.keys, k ∈ ["_id", "username", "avatar", "subscribersCount", "isSubscribed"]) ∧
      (∀ a, o.getField "avatar" = some a → ∀ k ∈ a.keys, k = "url")) ∧
    "password" ∉ d.toBson.allKeys ∧ "refreshToken" ∉ d.toBson.allKeys ∧
    "email" ∉ d.toBson.allKeys := by
  cases hown : d.owner with
  | none =>
    refine ⟨?_, ?_, ?_, ?_, ?_⟩
    · intro k hk
      simp only [VideoDetail.toBson, hown, Bson.keys, List.map_cons, List.map_nil,
        List.append_nil, List.cons_append, List.nil_append, List.mem_cons,
        List.mem_singleton, List.not_mem_nil, or_false] at hk
      rcases hk with h | h | h | h | h | h | h | h | h | h <;> subst h <;> decide
    · intro o ho
      simp [VideoDetail.toBson, hown, Bson.getField] at ho
    · simp [VideoDetail.toBson, hown, MediaRef.toBson, Bson.allKeys, allKeysOfFields]
    · simp [VideoDetail.toBson, hown, MediaRef.toBson, Bson.allKeys, allKeysOfFields]
    · simp [VideoDetail.toBson, hown, MediaRef.toBson, Bson.allKeys, allKeysOfFields]
  | some owner =>
    refine ⟨?_, ?_, ?_, ?_, ?_⟩
    · intro k hk
      simp only [VideoDetail.toBson, hown, Bson.keys, List.map_cons, List.map_nil,
        List.append_nil, List.cons_append, List.nil_append, List.mem_cons,
        List.mem_singleton, List.not_mem_nil, or_false] at hk
      rcases hk with h | h | h | h | h | h | h | h | h | h | h <;> subst h <;> decide
    · intro o ho
      have ho2 : o = owner.toBson := by
        simp [VideoDetail.toBson, hown, Bson.getField] at ho
        exact ho.symm
      subst ho2
      constructor
      · intro k hk
        simp only [VideoOwner.toBson, Bson.keys, List.map_cons, List.map_nil] at hk
        exact hk
      · intro a ha k hk
        have ha2 : a = Bson.doc [("url", .str owner.avatarUrl)] := by
          simp [VideoOwner.toBson, Bson.getField] at ha
          exact ha.symm
        subst ha2
        simpa [Bson.keys] using hk
    · simp [VideoDetail.toBson, hown, VideoOwner.toBson, MediaRef.toBson, Bson.allKeys,
        allKeysOfFields]
    · simp [VideoDetail.toBson, hown, VideoOwner.toBson, MediaRef.toBson, Bson.allKeys,
        allKeysOfFields]
    · simp [VideoDetail.toBson, hown, VideoOwner.toBson, MediaRef.toBson, Bson.allKeys,
        allKeysOfFields]

/-- C15: for every store, every viewer and every answer of `getVideoById`, each
returned object is the document the pipeline produces for a stored video with
the requested identifier; its fields are `_id` and fields of the final
inclusion list; its `owner`, when there is one, has only the fields `_id`,
`username`, `avatar` (holding `url` alone), `subscribersCount` and
`isSubscribed`; the names `password`, `refreshToken` and `email` occur nowhere in
it; and the document is the same when the password, refresh token and email of
every user are blanked in the store. -/
theorem getVideoById_projection (env : Env) (store : Store) (viewer : Option ObjectId)
    (videoId : String) (status : Nat) (data : List VideoDetail)
    (h : (getVideoById env store viewer videoId).response = .json status data) :
    ∀ d ∈ data, ∃ v ∈ store.videos,
      v._id = videoId ∧ d.toBson = videoDocument store viewer v ∧
      (∀ k ∈ (videoDocument store viewer v).keys,
        k = "_id" ∨ Include.whole k ∈ videoProjection) ∧
      (∀ o, (videoDocument store viewer v).getField "owner" = some o →
        (∀ k ∈ o.keys,
          k ∈ ["_id", "username", "avatar", "subscribersCount", "isSubscribed"]) ∧
        (∀ a, o.getField "avatar" = some a → ∀ k ∈ a.keys, k = "url")) ∧
      "password" ∉ (videoDocument store viewer v).allKeys ∧
      "refreshToken" ∉ (videoDocument store viewer v).allKeys ∧
      "email" ∉ (videoDocument store viewer v).allKeys ∧
      videoDocument store.withoutSecrets viewer v = videoDocument store viewer v := by
  intro d hd
  unfold getVideoById at h
  split at h
  · simp at h
  · split at h
    · simp at h
    · rename_i videoExist hfind
      have hex : videoExist._id = videoId := by
        have := List.find?_some hfind
        simpa using this
      simp only [Response.json.injEq] at h
      obtain ⟨_, rfl⟩ := h
      simp only [List.mem_map, List.mem_filter, decide_eq_true_eq] at hd
      obtain ⟨v, ⟨hv, hvid⟩, rfl⟩ := hd
      have hdoc := videoDocument_eq store viewer v
      obtain ⟨hkeys, howner, hpw, hrt, hem⟩ := (videoDetail store viewer v).toBson_fields
      refine ⟨v, hv, hvid.trans hex, hdoc.symm, ?_, ?_, ?_, ?_, ?_, ?_⟩
      · rw [hdoc]
        exact hkeys
      · rw [hdoc]
        exact howner
      · rw [hdoc]
        exact hpw
      · rw [hdoc]
        exact hrt
      · rw [hdoc]
        exact hem
      · rw [videoDocument_eq, videoDocument_eq, videoDetail_withoutSecrets]

/-- C15, on a sample: the answer to bob for the clip of alice. -/
theorem getVideoById_projection_witness :
    (getVideoById sampleEnv socialStore (some bobId) clipId).response = .json 200 [clipDetail] ∧
    ∀ d ∈ [clipDetail], ∃ v ∈ socialStore.videos,
      v._id = clipId ∧ d.toBson = videoDocument socialStore (some bobId) v ∧
      (∀ k ∈ (videoDocument socialStore (some bobId) v).keys,
        k = "_id" ∨ Include.whole k ∈ videoProjection) ∧
      (∀ o, (videoDocument socialStore (some bobId) v).getField "owner" = some o →
        (∀ k ∈ o.keys,
          k ∈ ["_id", "username", "avatar", "subscribersCount", "isSubscribed"]) ∧
        (∀ a, o.getField "avatar" = some a → ∀ k ∈ a.keys, k = "url")) ∧
      "password" ∉ (videoDocument socialStore (some bobId) v).allKeys ∧
      "refreshToken" ∉ (videoDocument socialStore (some bobId) v).allKeys ∧
      "email" ∉ (videoDocument socialStore (some bobId) v).allKeys ∧
      videoDocument socialStore.withoutSecrets (some bobId) v =
        videoDocument socialStore (some bobId) v :=
  ⟨by decide,
   getVideoById_projection sampleEnv socialStore (some bobId) clipId 200 [clipDetail]
     (by decide)⟩

end VideoBackend
